import Mathlib

set_option maxHeartbeats 1000000

/-!
Verification of the geometry-and-trajectory analysis engine of a tennis
video calibration system.  The pipeline's pure algorithmic parts are
shallowly embedded here: exact rational arithmetic (ℚ) stands for the
floating-point numbers of the source, real numbers (ℝ) are used where the
source takes square roots or arc tangents, and external library calls
(the homography least-squares solver, the cubic-spline extrapolator, the
neural detectors and the gradient-boosted bounce scorer) appear as
explicit oracle parameters.
-/

/-! ## 3×3 homography matrices (`court_detector_robust.py`, `numpy`/`cv2` math)

A homography is a 3×3 matrix acting projectively on 2D points.
`cv2.perspectiveTransform` applies the matrix to the homogeneous extension
`(x, y, 1)` and divides by the third coordinate; `np.linalg.inv` is the
exact matrix inverse, here realised through the adjugate divided by the
determinant.  Rational division by zero is a degenerate input (`cv2`
produces infinities there); theorems assume the relevant denominators are
nonzero.
-/

structure Mat3 where
  m00 : ℚ
  m01 : ℚ
  m02 : ℚ
  m10 : ℚ
  m11 : ℚ
  m12 : ℚ
  m20 : ℚ
  m21 : ℚ
  m22 : ℚ
deriving DecidableEq, Repr

def Mat3.det (m : Mat3) : ℚ :=
  m.m00 * (m.m11 * m.m22 - m.m12 * m.m21)
    - m.m01 * (m.m10 * m.m22 - m.m12 * m.m20)
    + m.m02 * (m.m10 * m.m21 - m.m11 * m.m20)

/-- Matrix inverse via the adjugate, the exact value computed by
`np.linalg.inv` on an invertible matrix. -/
def Mat3.inv (m : Mat3) : Mat3 :=
  let d := m.det
  { m00 := (m.m11 * m.m22 - m.m12 * m.m21) / d
    m01 := (m.m02 * m.m21 - m.m01 * m.m22) / d
    m02 := (m.m01 * m.m12 - m.m02 * m.m11) / d
    m10 := (m.m12 * m.m20 - m.m10 * m.m22) / d
    m11 := (m.m00 * m.m22 - m.m02 * m.m20) / d
    m12 := (m.m02 * m.m10 - m.m00 * m.m12) / d
    m20 := (m.m10 * m.m21 - m.m11 * m.m20) / d
    m21 := (m.m01 * m.m20 - m.m00 * m.m21) / d
    m22 := (m.m00 * m.m11 - m.m01 * m.m10) / d }

/-- The identity matrix (the homography fixing every point). -/
def Mat3.one : Mat3 :=
  { m00 := 1, m01 := 0, m02 := 0
    m10 := 0, m11 := 1, m12 := 0
    m20 := 0, m21 := 0, m22 := 1 }

/-- Action of a matrix on the homogeneous extension `(x, y, 1)` of a point. -/
def Mat3.applyH (m : Mat3) (p : ℚ × ℚ) : ℚ × ℚ × ℚ :=
  (m.m00 * p.1 + m.m01 * p.2 + m.m02,
   m.m10 * p.1 + m.m11 * p.2 + m.m12,
   m.m20 * p.1 + m.m21 * p.2 + m.m22)

/-- `cv2.perspectiveTransform` on a single point: apply the matrix
homogeneously and divide by the third coordinate. -/
def perspectiveTransform (m : Mat3) (p : ℚ × ℚ) : ℚ × ℚ :=
  let h := m.applyH p
  (h.1 / h.2.2, h.2.1 / h.2.2)

/-! ## `RobustCourtDetector.pixel_to_court` / `court_to_pixel`
(`court_detector_robust.py`, lines 579-618)

`pixel_to_court` applies the stored pixel→court homography `H` through
`cv2.perspectiveTransform`; `court_to_pixel` applies `np.linalg.inv(H)`
the same way.  (The `None` guard on a missing homography is dropped here:
the claims quantify over an available homography.)
-/

def pixel_to_court (H : Mat3) (p : ℚ × ℚ) : ℚ × ℚ :=
  perspectiveTransform H p

def court_to_pixel (H : Mat3) (q : ℚ × ℚ) : ℚ × ℚ :=
  perspectiveTransform H.inv q

lemma inv_applyH_denom (m : Mat3) (x y : ℚ)
    (hd : m.det ≠ 0) (hw : m.m20 * x + m.m21 * y + m.m22 ≠ 0) :
    (m.inv.applyH (perspectiveTransform m (x, y))).2.2
      = 1 / (m.m20 * x + m.m21 * y + m.m22) := by
  simp only [Mat3.det] at hd
  simp only [Mat3.inv, Mat3.applyH, perspectiveTransform, Mat3.det]
  field_simp
  ring

lemma inv_applyH_fst (m : Mat3) (x y : ℚ)
    (hd : m.det ≠ 0) (hw : m.m20 * x + m.m21 * y + m.m22 ≠ 0) :
    (m.inv.applyH (perspectiveTransform m (x, y))).1
      = x / (m.m20 * x + m.m21 * y + m.m22) := by
  simp only [Mat3.det] at hd
  simp only [Mat3.inv, Mat3.applyH, perspectiveTransform, Mat3.det]
  field_simp
  ring

lemma inv_applyH_snd (m : Mat3) (x y : ℚ)
    (hd : m.det ≠ 0) (hw : m.m20 * x + m.m21 * y + m.m22 ≠ 0) :
    (m.inv.applyH (perspectiveTransform m (x, y))).2.1
      = y / (m.m20 * x + m.m21 * y + m.m22) := by
  simp only [Mat3.det] at hd
  simp only [Mat3.inv, Mat3.applyH, perspectiveTransform, Mat3.det]
  field_simp
  ring

/-- **C1.** For every invertible homography `H` and every pixel point `p`
at which the projective action of `H` is defined (its homogeneous third
coordinate is nonzero — the condition under which the floating-point code
produces finite values), the court→pixel transform exactly inverts the
pixel→court transform: `court_to_pixel H (pixel_to_court H p) = p`.  In
the exact rational model the round trip is exact, hence certainly within
floating-point tolerance. -/
theorem C1_homography_round_trip (H : Mat3) (p : ℚ × ℚ)
    (hdet : H.det ≠ 0) (hw : (H.applyH p).2.2 ≠ 0) :
    court_to_pixel H (pixel_to_court H p) = p := by
  obtain ⟨x, y⟩ := p
  have hW : H.m20 * x + H.m21 * y + H.m22 ≠ 0 := by
    simpa [Mat3.applyH] using hw
  have e1 := inv_applyH_fst H x y hdet hW
  have e2 := inv_applyH_snd H x y hdet hW
  have e3 := inv_applyH_denom H x y hdet hW
  show (let h := H.inv.applyH (pixel_to_court H (x, y)); (h.1 / h.2.2, h.2.1 / h.2.2)) = (x, y)
  simp only [pixel_to_court] at *
  rw [e1, e2, e3]
  simp only [Prod.mk.injEq]
  constructor <;> field_simp

/-- Witness for C1 at a concrete invertible homography and point. -/
theorem C1_homography_round_trip_witness :
    ({ m00 := 2, m01 := 1, m02 := 3, m10 := 0, m11 := 1, m12 := 4,
       m20 := 0, m21 := 0, m22 := 1 } : Mat3).det ≠ 0 ∧
    (({ m00 := 2, m01 := 1, m02 := 3, m10 := 0, m11 := 1, m12 := 4,
        m20 := 0, m21 := 0, m22 := 1 } : Mat3).applyH (5, 7)).2.2 ≠ 0 ∧
    court_to_pixel
      { m00 := 2, m01 := 1, m02 := 3, m10 := 0, m11 := 1, m12 := 4,
        m20 := 0, m21 := 0, m22 := 1 }
      (pixel_to_court
        { m00 := 2, m01 := 1, m02 := 3, m10 := 0, m11 := 1, m12 := 4,
          m20 := 0, m21 := 0, m22 := 1 } (5, 7)) = (5, 7) :=
  ⟨by norm_num [Mat3.det], by norm_num [Mat3.applyH],
   C1_homography_round_trip _ (5, 7) (by norm_num [Mat3.det])
     (by norm_num [Mat3.applyH])⟩

/-! ## Court reference geometry (`calibrate_comprehensive.py`, `CourtReference`)

The 14 reference keypoints, in the order the source builds `key_points`
(baseline top, baseline bottom, left inner line, right inner line, top
inner line, bottom inner line, middle line), and the twelve four-point
sub-configurations `court_conf` with their indices `court_conf_ind` (the
source recovers the indices with `list.index`; all 14 points are distinct,
so the indices are exactly the positions listed here).
-/

def key_points : List (ℚ × ℚ) :=
  [(286, 561), (1379, 561), (286, 2935), (1379, 2935),
   (423, 561), (423, 2935), (1242, 561), (1242, 2935),
   (423, 1110), (1242, 1110), (423, 2386), (1242, 2386),
   (832, 1110), (832, 2386)]

def court_conf_ind : ℕ → List ℕ
  | 1 => [0, 1, 2, 3]
  | 2 => [4, 6, 5, 7]
  | 3 => [4, 1, 5, 3]
  | 4 => [0, 6, 2, 7]
  | 5 => [8, 9, 10, 11]
  | 6 => [8, 9, 5, 7]
  | 7 => [4, 6, 10, 11]
  | 8 => [6, 1, 7, 3]
  | 9 => [0, 4, 2, 5]
  | 10 => [8, 12, 10, 13]
  | 11 => [12, 9, 13, 11]
  | 12 => [10, 11, 5, 7]
  | _ => []

def court_conf (k : ℕ) : List (ℚ × ℚ) :=
  (court_conf_ind k).map (fun i => key_points.getD i (0, 0))

/-- Euclidean distance (`scipy.spatial.distance.euclidean`). -/
noncomputable def eDist (p q : ℚ × ℚ) : ℝ :=
  Real.sqrt (((p.1 - q.1) ^ 2 + (p.2 - q.2) ^ 2 : ℚ) : ℝ)

/-! ## `CourtDetector.get_trans_matrix` (`calibrate_comprehensive.py`, 362-385)

The per-frame keypoint detection is a 14-slot list of present-or-absent
points.  For each of the twelve configurations whose four defining points
are all detected, the external least-squares solver `cv2.findHomography`
(oracle parameter `fh`, fed the reference points and the detected points)
yields a candidate matrix; the candidate is scored by transforming the
reference keypoints through it and averaging the Euclidean residuals
against the detected positions — the source iterates `for i in range(12)`,
so only the first 12 keypoint slots (never the two middle-line keypoints
12 and 13) contribute residuals.  The candidate with the strictly smallest
mean residual is kept (first encountered wins ties).
-/

def lookupAll (pts : List (Option (ℚ × ℚ))) : List ℕ → Option (List (ℚ × ℚ))
  | [] => some []
  | i :: t =>
    match pts.getD i none, lookupAll pts t with
    | some p, some ps => some (p :: ps)
    | _, _ => none

/-- The residual list of a candidate matrix: distances between each
detected keypoint among the first 12 slots outside the defining indices
and its position predicted by the candidate homography. -/
noncomputable def candidateDists (pts : List (Option (ℚ × ℚ)))
    (inds : List ℕ) (M : Mat3) : List ℝ :=
  (List.range 12).filterMap (fun i =>
    if i ∈ inds then none
    else
      match pts.getD i none with
      | none => none
      | some q => some (eDist q (perspectiveTransform M (key_points.getD i (0, 0)))))

/-- One configuration's scored candidate: `none` when a defining point is
missing, the solver fails, or no other keypoint is available to score. -/
noncomputable def confCandidate (fh : List (ℚ × ℚ) → List (ℚ × ℚ) → Option Mat3)
    (pts : List (Option (ℚ × ℚ))) (k : ℕ) : Option (Mat3 × ℝ) :=
  match lookupAll pts (court_conf_ind k) with
  | none => none
  | some inters =>
    match fh (court_conf k) inters with
    | none => none
    | some M =>
      match candidateDists pts (court_conf_ind k) M with
      | [] => none
      | d :: ds => some (M, ((d :: ds).sum / (d :: ds).length))

noncomputable def selBetter (best : Option (Mat3 × ℝ)) (c : Option (Mat3 × ℝ)) :
    Option (Mat3 × ℝ) :=
  match c with
  | none => best
  | some (M, s) =>
    match best with
    | none => some (M, s)
    | some (M0, s0) => if s < s0 then some (M, s) else some (M0, s0)

/-- `CourtDetector.get_trans_matrix`: iterate configurations 1..12, keep
the candidate with the strictly smallest mean residual. -/
noncomputable def get_trans_matrix (fh : List (ℚ × ℚ) → List (ℚ × ℚ) → Option Mat3)
    (pts : List (Option (ℚ × ℚ))) : Option Mat3 :=
  (((List.range 12).map (· + 1)).foldl
    (fun best k => selBetter best (confCandidate fh pts k)) none).map Prod.fst

/-- All scored candidates, in configuration order. -/
noncomputable def candidates (fh : List (ℚ × ℚ) → List (ℚ × ℚ) → Option Mat3)
    (pts : List (Option (ℚ × ℚ))) : List (Mat3 × ℝ) :=
  ((List.range 12).map (· + 1)).filterMap (confCandidate fh pts)

lemma eDist_nonneg (p q : ℚ × ℚ) : 0 ≤ eDist p q :=
  Real.sqrt_nonneg _

lemma eDist_self (p : ℚ × ℚ) : eDist p p = 0 := by
  simp [eDist]

lemma eDist_eq_of_sq (p q : ℚ × ℚ) (c : ℚ) (hc : 0 ≤ c)
    (h : (p.1 - q.1) ^ 2 + (p.2 - q.2) ^ 2 = c ^ 2) : eDist p q = (c : ℝ) := by
  rw [eDist, h]
  push_cast
  exact Real.sqrt_sq (by exact_mod_cast hc)

lemma candidateDists_nonneg (pts : List (Option (ℚ × ℚ))) (inds : List ℕ) (M : Mat3) :
    ∀ x ∈ candidateDists pts inds M, 0 ≤ x := by
  intro x hx
  simp only [candidateDists, List.mem_filterMap] at hx
  obtain ⟨i, _, hi⟩ := hx
  split at hi
  · exact absurd hi (by simp)
  · split at hi
    · exact absurd hi (by simp)
    · simp only [Option.some.injEq] at hi
      rw [← hi]
      exact eDist_nonneg _ _

lemma candidate_nonneg (fh : List (ℚ × ℚ) → List (ℚ × ℚ) → Option Mat3)
    (pts : List (Option (ℚ × ℚ))) (k : ℕ) (M : Mat3) (s : ℝ)
    (h : confCandidate fh pts k = some (M, s)) : 0 ≤ s := by
  simp only [confCandidate] at h
  split at h
  · exact absurd h (by simp)
  · split at h
    · exact absurd h (by simp)
    · split at h
      · exact absurd h (by simp)
      · rename_i M' hfh xx d ds hd
        simp only [Option.some.injEq, Prod.mk.injEq] at h
        rw [← h.2]
        apply div_nonneg
        · apply List.sum_nonneg
          intro x hx
          exact candidateDists_nonneg pts _ M' x (hd ▸ hx)
        · positivity

lemma selBetter_keep_zero (M0 : Mat3) (c : Option (Mat3 × ℝ))
    (hc : ∀ M s, c = some (M, s) → 0 ≤ s) :
    selBetter (some (M0, (0 : ℝ))) c = some (M0, 0) := by
  match c with
  | none => rfl
  | some (M, s) =>
    simp only [selBetter]
    rw [if_neg]
    exact not_lt.mpr (hc M s rfl)

lemma fold_keep_zero (fh : List (ℚ × ℚ) → List (ℚ × ℚ) → Option Mat3)
    (pts : List (Option (ℚ × ℚ))) (M0 : Mat3) :
    ∀ ks : List ℕ,
      ks.foldl (fun best k => selBetter best (confCandidate fh pts k)) (some (M0, (0 : ℝ)))
        = some (M0, 0)
  | [] => rfl
  | k :: t => by
    rw [List.foldl_cons,
        selBetter_keep_zero M0 _ (fun M s h => candidate_nonneg fh pts k M s h)]
    exact fold_keep_zero fh pts M0 t

lemma foldl_selBetter_filterMap (fh : List (ℚ × ℚ) → List (ℚ × ℚ) → Option Mat3)
    (pts : List (Option (ℚ × ℚ))) :
    ∀ (ks : List ℕ) (b : Option (Mat3 × ℝ)),
      ks.foldl (fun best k => selBetter best (confCandidate fh pts k)) b
        = (ks.filterMap (confCandidate fh pts)).foldl (fun best c => selBetter best (some c)) b
  | [], b => rfl
  | k :: t, b => by
    rw [List.foldl_cons, List.filterMap_cons]
    cases hk : confCandidate fh pts k with
    | none =>
      exact foldl_selBetter_filterMap fh pts t b
    | some c =>
      exact foldl_selBetter_filterMap fh pts t (selBetter b (some c))

lemma selfold_spec :
    ∀ (cs : List (Mat3 × ℝ)) (b : Option (Mat3 × ℝ)) (M : Mat3) (s : ℝ),
      cs.foldl (fun best c => selBetter best (some c)) b = some (M, s) →
      ((M, s) ∈ cs ∨ b = some (M, s)) ∧ (∀ p ∈ cs, s ≤ p.2) ∧
        (∀ p, b = some p → s ≤ p.2)
  | [], b, M, s => by
    intro h
    have hb : b = some (M, s) := h
    refine ⟨Or.inr hb, by simp, ?_⟩
    intro p hp
    rw [hb] at hp
    simp only [Option.some.injEq] at hp
    rw [← hp]
  | c :: t, b, M, s => by
    intro h
    rw [List.foldl_cons] at h
    obtain ⟨hmem, hlow, hb⟩ := selfold_spec t (selBetter b (some c)) M s h
    have hstep : ∃ p', selBetter b (some c) = some p' ∧ p'.2 ≤ c.2 ∧
        (∀ q, b = some q → p'.2 ≤ q.2) ∧ (p' = c ∨ b = some p') := by
      match b with
      | none => exact ⟨c, rfl, le_refl _, by simp, Or.inl rfl⟩
      | some (M0, s0) =>
        by_cases hlt : c.2 < s0
        · refine ⟨c, ?_, le_refl _, ?_, Or.inl rfl⟩
          · simp only [selBetter]
            rw [if_pos hlt]
          · intro q hq
            simp only [Option.some.injEq] at hq
            rw [← hq]
            exact le_of_lt hlt
        · refine ⟨(M0, s0), ?_, not_lt.mp hlt, ?_, Or.inr rfl⟩
          · simp only [selBetter]
            rw [if_neg hlt]
          · intro q hq
            simp only [Option.some.injEq] at hq
            rw [← hq]
    obtain ⟨p', hp', hpc, hpb, hpor⟩ := hstep
    have hs_le : s ≤ p'.2 := hb p' hp'
    constructor
    · rcases hmem with hm | hm
      · exact Or.inl (List.mem_cons_of_mem _ hm)
      · rw [hp'] at hm
        simp only [Option.some.injEq] at hm
        rcases hpor with hc | hbb
        · rw [← hm, hc]
          exact Or.inl (List.mem_cons_self _ _)
        · rw [← hm]
          exact Or.inr hbb
    · refine ⟨?_, ?_⟩
      · intro p hp
        rcases List.mem_cons.mp hp with rfl | hp
        · exact le_trans hs_le hpc
        · exact hlow p hp
      · intro q hq
        exact le_trans hs_le (hpb q hq)

lemma confCandidate_eval (fh : List (ℚ × ℚ) → List (ℚ × ℚ) → Option Mat3)
    (pts : List (Option (ℚ × ℚ))) (k : ℕ) (inters : List (ℚ × ℚ)) (M : Mat3)
    (d : ℝ) (ds : List ℝ)
    (h1 : lookupAll pts (court_conf_ind k) = some inters)
    (h2 : fh (court_conf k) inters = some M)
    (h3 : candidateDists pts (court_conf_ind k) M = d :: ds) :
    confCandidate fh pts k = some (M, (d :: ds).sum / (d :: ds).length) := by
  simp only [confCandidate, h1, h2, h3]

lemma confCandidate_none_lookup (fh : List (ℚ × ℚ) → List (ℚ × ℚ) → Option Mat3)
    (pts : List (Option (ℚ × ℚ))) (k : ℕ)
    (h1 : lookupAll pts (court_conf_ind k) = none) :
    confCandidate fh pts k = none := by
  simp [confCandidate, h1]

lemma PT_one (p : ℚ × ℚ) : perspectiveTransform Mat3.one p = p := by
  cases p
  simp [perspectiveTransform, Mat3.applyH, Mat3.one]

/-- Pure translation by `(3, 0)`: the exact least-squares homography for
four correspondences that are all shifted by three pixels in `x`. -/
def T3 : Mat3 :=
  { m00 := 1, m01 := 0, m02 := 3
    m10 := 0, m11 := 1, m12 := 0
    m20 := 0, m21 := 0, m22 := 1 }

lemma PT_T3 (p : ℚ × ℚ) : perspectiveTransform T3 p = (p.1 + 3, p.2) := by
  cases p
  simp [perspectiveTransform, Mat3.applyH, T3]

/-! ### A detection on which the range-12 scoring and the spec's
"all other detected keypoints" scoring disagree.

Keypoints 0-3 are detected exactly at their reference positions,
keypoints 8-11 are detected shifted by `(3, 0)`, middle-line keypoint 12
is detected shifted by `(3, 0)`, and the rest are missing.  Exactly
configurations 1 and 5 have their four defining points present.  The
oracle below returns the exact-fit homography for each: identity for
configuration 1 (its detected points coincide with the reference points)
and the `(3, 0)` translation for configuration 5 (its detected points are
the reference points shifted by `(3, 0)`) — the matrices
`cv2.findHomography` computes on these exact correspondences. -/

def cexPts : List (Option (ℚ × ℚ)) :=
  [some (286, 561), some (1379, 561), some (286, 2935), some (1379, 2935),
   none, none, none, none,
   some (426, 1110), some (1245, 1110), some (426, 2386), some (1245, 2386),
   some (835, 1110), none]

def cexFh (src _dst : List (ℚ × ℚ)) : Option Mat3 :=
  if src = court_conf 1 then some Mat3.one
  else if src = court_conf 5 then some T3
  else none

lemma cexDists1 : candidateDists cexPts (court_conf_ind 1) Mat3.one
    = [(3 : ℝ), 3, 3, 3] := by
  have h : candidateDists cexPts (court_conf_ind 1) Mat3.one
      = [eDist (426, 1110) (perspectiveTransform Mat3.one (423, 1110)),
         eDist (1245, 1110) (perspectiveTransform Mat3.one (1242, 1110)),
         eDist (426, 2386) (perspectiveTransform Mat3.one (423, 2386)),
         eDist (1245, 2386) (perspectiveTransform Mat3.one (1242, 2386))] := rfl
  rw [h]
  simp only [PT_one]
  rw [eDist_eq_of_sq ((426 : ℚ), (1110 : ℚ)) ((423 : ℚ), (1110 : ℚ)) 3 (by norm_num) (by norm_num),
      eDist_eq_of_sq ((1245 : ℚ), (1110 : ℚ)) ((1242 : ℚ), (1110 : ℚ)) 3 (by norm_num) (by norm_num),
      eDist_eq_of_sq ((426 : ℚ), (2386 : ℚ)) ((423 : ℚ), (2386 : ℚ)) 3 (by norm_num) (by norm_num),
      eDist_eq_of_sq ((1245 : ℚ), (2386 : ℚ)) ((1242 : ℚ), (2386 : ℚ)) 3 (by norm_num) (by norm_num)]
  norm_num

lemma cexDists5 : candidateDists cexPts (court_conf_ind 5) T3
    = [(3 : ℝ), 3, 3, 3] := by
  have h : candidateDists cexPts (court_conf_ind 5) T3
      = [eDist (286, 561) (perspectiveTransform T3 (286, 561)),
         eDist (1379, 561) (perspectiveTransform T3 (1379, 561)),
         eDist (286, 2935) (perspectiveTransform T3 (286, 2935)),
         eDist (1379, 2935) (perspectiveTransform T3 (1379, 2935))] := rfl
  rw [h]
  simp only [PT_T3]
  rw [eDist_eq_of_sq ((286 : ℚ), (561 : ℚ)) ((286 : ℚ) + 3, (561 : ℚ)) 3 (by norm_num) (by norm_num),
      eDist_eq_of_sq ((1379 : ℚ), (561 : ℚ)) ((1379 : ℚ) + 3, (561 : ℚ)) 3 (by norm_num) (by norm_num),
      eDist_eq_of_sq ((286 : ℚ), (2935 : ℚ)) ((286 : ℚ) + 3, (2935 : ℚ)) 3 (by norm_num) (by norm_num),
      eDist_eq_of_sq ((1379 : ℚ), (2935 : ℚ)) ((1379 : ℚ) + 3, (2935 : ℚ)) 3 (by norm_num) (by norm_num)]
  norm_num

lemma cexCand1 : confCandidate cexFh cexPts 1 = some (Mat3.one, 3) := by
  rw [confCandidate_eval cexFh cexPts 1 (court_conf 1) Mat3.one 3 [3, 3, 3]
        rfl (by simp [cexFh]) cexDists1]
  norm_num

lemma cexCand5 : confCandidate cexFh cexPts 5 = some (T3, 3) := by
  have hfh : cexFh (court_conf 5)
      [(426, 1110), (1245, 1110), (426, 2386), (1245, 2386)] = some T3 := by
    rw [cexFh, if_neg, if_pos rfl]
    intro hcontra
    have := congrArg (fun l => l.getD 0 (0, 0)) hcontra
    norm_num [court_conf, court_conf_ind, key_points] at this
  rw [confCandidate_eval cexFh cexPts 5
        [(426, 1110), (1245, 1110), (426, 2386), (1245, 2386)] T3 3 [3, 3, 3]
        rfl hfh cexDists5]
  norm_num

lemma cexGtm : get_trans_matrix cexFh cexPts = some Mat3.one := by
  rw [get_trans_matrix,
      show ((List.range 12).map (· + 1)) = [1, 2, 3, 4, 5, 6, 7, 8, 9, 10, 11, 12] from rfl]
  simp only [List.foldl_cons, List.foldl_nil]
  rw [cexCand1, cexCand5,
      confCandidate_none_lookup cexFh cexPts 2 rfl,
      confCandidate_none_lookup cexFh cexPts 3 rfl,
      confCandidate_none_lookup cexFh cexPts 4 rfl,
      confCandidate_none_lookup cexFh cexPts 6 rfl,
      confCandidate_none_lookup cexFh cexPts 7 rfl,
      confCandidate_none_lookup cexFh cexPts 8 rfl,
      confCandidate_none_lookup cexFh cexPts 9 rfl,
      confCandidate_none_lookup cexFh cexPts 10 rfl,
      confCandidate_none_lookup cexFh cexPts 11 rfl,
      confCandidate_none_lookup cexFh cexPts 12 rfl]
  norm_num [selBetter]

/-! ### C2: the claim's scoring, modelled from the spec's words -/

/-- Modelled from the spec's words ("projecting *all other* detected
keypoints"): residual list over all 14 keypoint slots outside the
defining indices — unlike the source, whose loop `for i in range(12)`
never scores the two middle-line keypoints. -/
noncomputable def specDists (pts : List (Option (ℚ × ℚ)))
    (inds : List ℕ) (M : Mat3) : List ℝ :=
  (List.range 14).filterMap (fun i =>
    if i ∈ inds then none
    else
      match pts.getD i none with
      | none => none
      | some q => some (eDist q (perspectiveTransform M (key_points.getD i (0, 0)))))

noncomputable def specMean (pts : List (Option (ℚ × ℚ)))
    (inds : List ℕ) (M : Mat3) : ℝ :=
  (specDists pts inds M).sum / (specDists pts inds M).length

/-- The candidate homographies re-scored the way the claim describes
(mean residual over all other detected keypoints). -/
noncomputable def specCandidates (fh : List (ℚ × ℚ) → List (ℚ × ℚ) → Option Mat3)
    (pts : List (Option (ℚ × ℚ))) : List (Mat3 × ℝ) :=
  ((List.range 12).map (· + 1)).filterMap (fun k =>
    (confCandidate fh pts k).map (fun p => (p.1, specMean pts (court_conf_ind k) p.1)))

/-- C2 as stated: the selected homography attains the minimum mean
residual over all other detected keypoints among the candidates. -/
def ClaimC2 (fh : List (ℚ × ℚ) → List (ℚ × ℚ) → Option Mat3)
    (pts : List (Option (ℚ × ℚ))) : Prop :=
  ∀ M, get_trans_matrix fh pts = some M →
    ∃ s, (M, s) ∈ specCandidates fh pts ∧ ∀ p ∈ specCandidates fh pts, s ≤ p.2

lemma cexSpecMean1 : specMean cexPts (court_conf_ind 1) Mat3.one = 3 := by
  have h : specDists cexPts (court_conf_ind 1) Mat3.one
      = [eDist (426, 1110) (perspectiveTransform Mat3.one (423, 1110)),
         eDist (1245, 1110) (perspectiveTransform Mat3.one (1242, 1110)),
         eDist (426, 2386) (perspectiveTransform Mat3.one (423, 2386)),
         eDist (1245, 2386) (perspectiveTransform Mat3.one (1242, 2386)),
         eDist (835, 1110) (perspectiveTransform Mat3.one (832, 1110))] := rfl
  rw [specMean, h]
  simp only [PT_one]
  rw [eDist_eq_of_sq ((426 : ℚ), (1110 : ℚ)) ((423 : ℚ), (1110 : ℚ)) 3 (by norm_num) (by norm_num),
      eDist_eq_of_sq ((1245 : ℚ), (1110 : ℚ)) ((1242 : ℚ), (1110 : ℚ)) 3 (by norm_num) (by norm_num),
      eDist_eq_of_sq ((426 : ℚ), (2386 : ℚ)) ((423 : ℚ), (2386 : ℚ)) 3 (by norm_num) (by norm_num),
      eDist_eq_of_sq ((1245 : ℚ), (2386 : ℚ)) ((1242 : ℚ), (2386 : ℚ)) 3 (by norm_num) (by norm_num),
      eDist_eq_of_sq ((835 : ℚ), (1110 : ℚ)) ((832 : ℚ), (1110 : ℚ)) 3 (by norm_num) (by norm_num)]
  norm_num

lemma cexSpecMean5 : specMean cexPts (court_conf_ind 5) T3 = 12 / 5 := by
  have h : specDists cexPts (court_conf_ind 5) T3
      = [eDist (286, 561) (perspectiveTransform T3 (286, 561)),
         eDist (1379, 561) (perspectiveTransform T3 (1379, 561)),
         eDist (286, 2935) (perspectiveTransform T3 (286, 2935)),
         eDist (1379, 2935) (perspectiveTransform T3 (1379, 2935)),
         eDist (835, 1110) (perspectiveTransform T3 (832, 1110))] := rfl
  rw [specMean, h]
  simp only [PT_T3]
  rw [eDist_eq_of_sq ((286 : ℚ), (561 : ℚ)) ((286 : ℚ) + 3, (561 : ℚ)) 3 (by norm_num) (by norm_num),
      eDist_eq_of_sq ((1379 : ℚ), (561 : ℚ)) ((1379 : ℚ) + 3, (561 : ℚ)) 3 (by norm_num) (by norm_num),
      eDist_eq_of_sq ((286 : ℚ), (2935 : ℚ)) ((286 : ℚ) + 3, (2935 : ℚ)) 3 (by norm_num) (by norm_num),
      eDist_eq_of_sq ((1379 : ℚ), (2935 : ℚ)) ((1379 : ℚ) + 3, (2935 : ℚ)) 3 (by norm_num) (by norm_num),
      eDist_eq_of_sq ((835 : ℚ), (1110 : ℚ)) ((832 : ℚ) + 3, (1110 : ℚ)) 0 (by norm_num) (by norm_num)]
  norm_num

lemma cexSpecCands : specCandidates cexFh cexPts = [(Mat3.one, 3), (T3, 12 / 5)] := by
  rw [specCandidates,
      show ((List.range 12).map (· + 1)) = [1, 2, 3, 4, 5, 6, 7, 8, 9, 10, 11, 12] from rfl]
  simp only [List.filterMap_cons, List.filterMap_nil, cexCand1, cexCand5,
    confCandidate_none_lookup cexFh cexPts 2 rfl,
    confCandidate_none_lookup cexFh cexPts 3 rfl,
    confCandidate_none_lookup cexFh cexPts 4 rfl,
    confCandidate_none_lookup cexFh cexPts 6 rfl,
    confCandidate_none_lookup cexFh cexPts 7 rfl,
    confCandidate_none_lookup cexFh cexPts 8 rfl,
    confCandidate_none_lookup cexFh cexPts 9 rfl,
    confCandidate_none_lookup cexFh cexPts 10 rfl,
    confCandidate_none_lookup cexFh cexPts 11 rfl,
    confCandidate_none_lookup cexFh cexPts 12 rfl,
    Option.map_some', Option.map_none']
  rw [cexSpecMean1, cexSpecMean5]

lemma one_ne_T3 : Mat3.one ≠ T3 := by
  intro hEq
  have := congrArg Mat3.m02 hEq
  norm_num [Mat3.one, T3] at this

/-- **C2, counterexample.**  On the detection `cexPts` (keypoints 0-3
exact, 8-11 and 12 shifted by three pixels, others missing) with the
exact-fit homographies the least-squares solver returns for the two
complete configurations, `get_trans_matrix` selects the configuration-1
identity candidate, whose mean residual over *all other detected
keypoints* is `3` — strictly worse than the configuration-5 candidate's
`12/5`.  The selected homography therefore does not minimise the mean
residual over all other detected keypoints: the middle-line keypoint 12,
although detected, is never scored by the source's `range(12)` loop. -/
theorem C2_counterexample : ¬ ClaimC2 cexFh cexPts := by
  intro h
  obtain ⟨s, hmem, hmin⟩ := h Mat3.one cexGtm
  rw [cexSpecCands] at hmem hmin
  have hs3 : s = 3 := by
    rcases List.mem_cons.mp hmem with h1 | h1
    · exact (Prod.mk.injEq _ _ _ _ ▸ h1).2
    · simp only [List.mem_singleton, Prod.mk.injEq] at h1
      exact absurd h1.1 one_ne_T3
  have hles := hmin (T3, 12 / 5) (by simp)
  rw [hs3] at hles
  norm_num at hles

/-! ### C2: scenario — 12 exact keypoints, middle-line pair perturbed -/

/-- All 14 keypoints detected: slots 0-11 exactly at their reference
positions, the two middle-line slots 12 and 13 perturbed by 50 pixels. -/
def scenarioPts : List (Option (ℚ × ℚ)) :=
  [some (286, 561), some (1379, 561), some (286, 2935), some (1379, 2935),
   some (423, 561), some (423, 2935), some (1242, 561), some (1242, 2935),
   some (423, 1110), some (1242, 1110), some (423, 2386), some (1242, 2386),
   some (882, 1110), some (882, 2386)]

lemma scenDists1 : candidateDists scenarioPts (court_conf_ind 1) Mat3.one
    = [(0 : ℝ), 0, 0, 0, 0, 0, 0, 0] := by
  have h : candidateDists scenarioPts (court_conf_ind 1) Mat3.one
      = [eDist (423, 561) (perspectiveTransform Mat3.one (423, 561)),
         eDist (423, 2935) (perspectiveTransform Mat3.one (423, 2935)),
         eDist (1242, 561) (perspectiveTransform Mat3.one (1242, 561)),
         eDist (1242, 2935) (perspectiveTransform Mat3.one (1242, 2935)),
         eDist (423, 1110) (perspectiveTransform Mat3.one (423, 1110)),
         eDist (1242, 1110) (perspectiveTransform Mat3.one (1242, 1110)),
         eDist (423, 2386) (perspectiveTransform Mat3.one (423, 2386)),
         eDist (1242, 2386) (perspectiveTransform Mat3.one (1242, 2386))] := rfl
  rw [h]
  simp only [PT_one, eDist_self]

lemma scenCand1 (fh : List (ℚ × ℚ) → List (ℚ × ℚ) → Option Mat3)
    (h : fh (court_conf 1) (court_conf 1) = some Mat3.one) :
    confCandidate fh scenarioPts 1 = some (Mat3.one, 0) := by
  rw [confCandidate_eval fh scenarioPts 1 (court_conf 1) Mat3.one 0 [0, 0, 0, 0, 0, 0, 0]
        rfl h scenDists1]
  norm_num

/-- **C2 (amended).**  The automatic homography estimator scores each
candidate four-point configuration whose four points are all present by
projecting the reference keypoints through the candidate homography and
taking the mean residual distance to the detected keypoints *among the
first twelve slots* (middle-line keypoints 12 and 13 are never scored),
and returns a homography attaining the minimum such mean residual among
all scoreable candidates.  In particular, with the 12 scoreable keypoints
exactly matching reference geometry and the two middle-line keypoints
perturbed by noise, whenever the least-squares solver returns the
identity for configuration 1's exact self-correspondence, the selected
homography is that identity candidate of configuration 1 — a
configuration using neither perturbed point among its four defining
indices. -/
theorem C2_config_selection :
    (∀ (fh : List (ℚ × ℚ) → List (ℚ × ℚ) → Option Mat3)
        (pts : List (Option (ℚ × ℚ))) (M : Mat3),
        get_trans_matrix fh pts = some M →
        ∃ s, (M, s) ∈ candidates fh pts ∧ ∀ p ∈ candidates fh pts, s ≤ p.2) ∧
    (∀ fh : List (ℚ × ℚ) → List (ℚ × ℚ) → Option Mat3,
        fh (court_conf 1) (court_conf 1) = some Mat3.one →
        get_trans_matrix fh scenarioPts = some Mat3.one ∧
        12 ∉ court_conf_ind 1 ∧ 13 ∉ court_conf_ind 1) := by
  constructor
  · intro fh pts M h
    rw [get_trans_matrix] at h
    cases hf : ((List.range 12).map (· + 1)).foldl
        (fun best k => selBetter best (confCandidate fh pts k)) none with
    | none => rw [hf] at h; exact absurd h (by simp)
    | some p =>
      rw [hf] at h
      obtain ⟨M', s⟩ := p
      simp only [Option.map_some', Option.some.injEq] at h
      rw [foldl_selBetter_filterMap] at hf
      obtain ⟨hmem, hlow, -⟩ := selfold_spec _ none M' s hf
      rcases hmem with hm | hm
      · exact ⟨s, h ▸ hm, fun p hp => hlow p hp⟩
      · exact absurd hm (by simp)
  · intro fh h
    refine ⟨?_, by decide, by decide⟩
    rw [get_trans_matrix,
        show ((List.range 12).map (· + 1)) = [1, 2, 3, 4, 5, 6, 7, 8, 9, 10, 11, 12] from rfl,
        List.foldl_cons, scenCand1 fh h,
        show selBetter none (some (Mat3.one, (0 : ℝ))) = some (Mat3.one, 0) from rfl,
        fold_keep_zero fh scenarioPts Mat3.one [2, 3, 4, 5, 6, 7, 8, 9, 10, 11, 12]]
    rfl

def wFh (src _dst : List (ℚ × ℚ)) : Option Mat3 :=
  if src = court_conf 1 then some Mat3.one else none

/-- Witness for C2 (amended): the minimality statement instantiated on the
concrete detection `cexPts`, and the scenario conclusion instantiated on a
concrete solver. -/
theorem C2_config_selection_witness :
    (∃ s, (Mat3.one, s) ∈ candidates cexFh cexPts ∧
      ∀ p ∈ candidates cexFh cexPts, s ≤ p.2) ∧
    (get_trans_matrix wFh scenarioPts = some Mat3.one ∧
      12 ∉ court_conf_ind 1 ∧ 13 ∉ court_conf_ind 1) :=
  ⟨C2_config_selection.1 cexFh cexPts Mat3.one cexGtm,
   C2_config_selection.2 wFh (by simp [wFh])⟩

/-! ## `BounceDetector.postprocess` (`calibrate_comprehensive.py`, 542-550)

`predict` thresholds the per-frame scores at 0.45 (`np.where(preds >
threshold)` yields the indices in increasing order) and, when any
candidate exists, filters consecutive candidates: the first candidate is
kept; each later candidate starts a new kept entry when its index gap to
the *previous candidate* is not one, and otherwise replaces the last kept
entry exactly when its score exceeds the *immediately preceding
candidate's* score (not the currently kept entry's score).
-/

def ppLoop (preds : ℕ → ℚ) (sel prev : ℕ) : List ℕ → List ℕ
  | [] => [sel]
  | i :: t =>
    if i - prev ≠ 1 then sel :: ppLoop preds i i t
    else if preds i > preds prev then ppLoop preds i i t
    else ppLoop preds sel i t

/-- The candidate frames: indices whose score strictly exceeds the 0.45
threshold, in increasing order. -/
def bounce_candidates (scores : List ℚ) : List ℕ :=
  scores.enum.filterMap
    (fun p => if p.2 > 45 / 100 then some p.1 else none)

/-- `BounceDetector.postprocess` fed from `predict`: empty when no frame
clears the threshold (the source only calls `postprocess` on a non-empty
candidate list). -/
def bounce_dedup (scores : List ℚ) : List ℕ :=
  match bounce_candidates scores with
  | [] => []
  | c :: t => ppLoop (fun i => scores.getD i 0) c c t

/-- Scan state used to characterise one run's kept frame: fold the run
keeping `(selected, previous)`. -/
def scanStep (preds : ℕ → ℚ) (s : ℕ × ℕ) (i : ℕ) : ℕ × ℕ :=
  (if preds i > preds s.2 then i else s.1, i)

def scanFold (preds : ℕ → ℚ) : List ℕ → ℕ × ℕ
  | [] => (0, 0)
  | c :: t => t.foldl (scanStep preds) (c, c)

/-- The frame the source keeps for one maximal run: the last frame at
which the score strictly rises relative to its immediate predecessor in
the run (the run's first frame when the score never rises). -/
def runScanSelect (preds : ℕ → ℚ) (l : List ℕ) : ℕ :=
  (scanFold preds l).1

/-- Decomposition of the candidate list into maximal runs of consecutive
indices (split exactly where the source's `gap ≠ 1` test splits). -/
def runsSplit (prev : ℕ) (cur : List ℕ) : List ℕ → List (List ℕ)
  | [] => [cur.reverse]
  | i :: t =>
    if i - prev ≠ 1 then cur.reverse :: runsSplit i [i] t
    else runsSplit i (i :: cur) t

def maximalRuns : List ℕ → List (List ℕ)
  | [] => []
  | c :: t => runsSplit c [c] t

/-- Modelled from the spec's words: "each run collapses to the single
frame with the highest score within that run" (first frame in case of a
tie for the highest score). -/
def runArgmax (preds : ℕ → ℚ) : List ℕ → ℕ
  | [] => 0
  | c :: t => t.foldl (fun best i => if preds i > preds best then i else best) c

lemma scanFold_append_single (preds : ℕ → ℚ) (l : List ℕ) (i : ℕ) (hl : l ≠ []) :
    scanFold preds (l ++ [i]) = scanStep preds (scanFold preds l) i := by
  match l with
  | [] => exact absurd rfl hl
  | c :: t =>
    show (t ++ [i]).foldl (scanStep preds) (c, c) = _
    rw [List.foldl_append]
    rfl

lemma ppLoop_runs (preds : ℕ → ℚ) :
    ∀ (t : List ℕ) (cur : List ℕ) (sel prev : ℕ), cur ≠ [] →
      scanFold preds cur.reverse = (sel, prev) →
      ppLoop preds sel prev t = (runsSplit prev cur t).map (runScanSelect preds)
  | [], cur, sel, prev => by
    intro hcur hscan
    simp only [ppLoop, runsSplit, List.map]
    rw [runScanSelect, hscan]
  | i :: t, cur, sel, prev => by
    intro hcur hscan
    simp only [ppLoop, runsSplit]
    by_cases hgap : i - prev ≠ 1
    · rw [if_pos hgap, if_pos hgap, List.map_cons]
      congr 1
      · rw [runScanSelect, hscan]
      · exact ppLoop_runs preds t [i] i i (by simp) rfl
    · rw [if_neg hgap, if_neg hgap]
      have hrev : (i :: cur).reverse = cur.reverse ++ [i] := by simp
      have hscan' : scanFold preds ((i :: cur).reverse)
          = (if preds i > preds prev then i else sel, i) := by
        rw [hrev, scanFold_append_single preds _ i (by simpa using hcur), hscan]
        rfl
      by_cases hup : preds i > preds prev
      · rw [if_pos hup]
        refine ppLoop_runs preds t (i :: cur) i i (by simp) ?_
        rw [hscan']
        rw [if_pos hup]
      · rw [if_neg hup]
        refine ppLoop_runs preds t (i :: cur) sel i (by simp) ?_
        rw [hscan']
        rw [if_neg hup]

lemma scanfold_mem (preds : ℕ → ℚ) :
    ∀ (t : List ℕ) (s : ℕ × ℕ),
      (t.foldl (scanStep preds) s).1 = s.1 ∨ (t.foldl (scanStep preds) s).1 ∈ t
  | [], s => Or.inl rfl
  | i :: t, s => by
    rcases scanfold_mem preds t (scanStep preds s i) with h | h
    · rw [List.foldl_cons]
      by_cases hup : preds i > preds s.2
      · refine Or.inr (List.mem_cons.mpr (Or.inl ?_))
        rw [h]
        simp only [scanStep]
        rw [if_pos hup]
      · left
        rw [h]
        simp only [scanStep]
        rw [if_neg hup]
    · exact Or.inr (List.mem_cons.mpr (Or.inr h))

def scores0 : List ℚ := [0, 0, 0, 0, 0, 9 / 10, 1 / 2, 7 / 10]

def scores1 : List ℚ := [0, 0, 0, 0, 0, 1 / 2, 9 / 10, 7 / 10]

lemma cand_scores0 : bounce_candidates scores0 = [5, 6, 7] := by
  rw [bounce_candidates,
      show scores0.enum
        = [(0, (0 : ℚ)), (1, 0), (2, 0), (3, 0), (4, 0),
           (5, 9 / 10), (6, 1 / 2), (7, 7 / 10)] from rfl]
  simp only [List.filterMap_cons, List.filterMap_nil]
  norm_num

lemma cand_scores1 : bounce_candidates scores1 = [5, 6, 7] := by
  rw [bounce_candidates,
      show scores1.enum
        = [(0, (0 : ℚ)), (1, 0), (2, 0), (3, 0), (4, 0),
           (5, 1 / 2), (6, 9 / 10), (7, 7 / 10)] from rfl]
  simp only [List.filterMap_cons, List.filterMap_nil]
  norm_num

/-- **C3, counterexample.**  Per-frame scores putting frames 5, 6, 7 above
the 0.45 threshold with scores 0.9, 0.5, 0.7: the run's highest score is
at frame 5, but the source's filter — which compares each candidate only
with its immediate predecessor — keeps frame 7 (score 0.7 exceeds frame
6's 0.5 and replaces the kept entry), so deduplication does not collapse
the run to the frame with the highest score. -/
theorem C3_counterexample :
    bounce_dedup scores0 = [7] ∧
    (maximalRuns (bounce_candidates scores0)).map
      (runArgmax (fun i => scores0.getD i 0)) = [5] ∧
    bounce_dedup scores0
      ≠ (maximalRuns (bounce_candidates scores0)).map
          (runArgmax (fun i => scores0.getD i 0)) := by
  refine ⟨?_, ?_, ?_⟩
  · rw [bounce_dedup, cand_scores0]
    norm_num [ppLoop, scores0]
  · rw [cand_scores0]
    rw [show maximalRuns [5, 6, 7] = [[5, 6, 7]] from by norm_num [maximalRuns, runsSplit]]
    norm_num [runArgmax, scores0]
  · rw [bounce_dedup, cand_scores0,
        show maximalRuns [5, 6, 7] = [[5, 6, 7]] from by norm_num [maximalRuns, runsSplit]]
    norm_num [ppLoop, runArgmax, scores0]

/-- **C3 (amended).**  Deduplication groups the above-threshold candidate
frames into maximal runs of consecutive frame indices and collapses each
run to a single frame belonging to that run; the kept frame is the one at
the last position in the run where the score strictly rises relative to
the immediately preceding frame (the run's first frame when the score
never rises) — which is the run's maximum only when the scores before the
maximum are increasing.  In particular, above-threshold scores at frames
5, 6, 7 with frame 6 strictly highest collapse to the bounce set `{6}`. -/
theorem C3_bounce_dedup :
    (∀ scores : List ℚ,
      bounce_dedup scores
        = (maximalRuns (bounce_candidates scores)).map
            (runScanSelect (fun i => scores.getD i 0))) ∧
    (∀ (preds : ℕ → ℚ) (l : List ℕ), l ≠ [] → runScanSelect preds l ∈ l) ∧
    bounce_dedup scores1 = [6] := by
  refine ⟨?_, ?_, ?_⟩
  · intro scores
    rw [bounce_dedup]
    cases hc : bounce_candidates scores with
    | nil => rw [maximalRuns]; rfl
    | cons c t =>
      rw [show maximalRuns (c :: t) = runsSplit c [c] t from rfl]
      exact ppLoop_runs _ t [c] c c (by simp) rfl
  · intro preds l hl
    match l with
    | c :: t =>
      rw [runScanSelect, scanFold]
      rcases scanfold_mem preds t (c, c) with h | h
      · rw [h]
        exact List.mem_cons_self _ _
      · exact List.mem_cons_of_mem _ h
  · rw [bounce_dedup, cand_scores1]
    norm_num [ppLoop, scores1]

/-- Witness for C3 (amended): the run-decomposition equation and the
membership statement instantiated at the concrete score list `scores1`
and its run `[5, 6, 7]`. -/
theorem C3_bounce_dedup_witness :
    (bounce_dedup scores1
      = (maximalRuns (bounce_candidates scores1)).map
          (runScanSelect (fun i => scores1.getD i 0))) ∧
    runScanSelect (fun i => scores1.getD i 0) [5, 6, 7] ∈ ([5, 6, 7] : List ℕ) :=
  ⟨C3_bounce_dedup.1 scores1,
   C3_bounce_dedup.2.1 (fun i => scores1.getD i 0) [5, 6, 7] (by simp)⟩

/-! ## `CourtDetector.pixel_to_court_coords` / `is_in_court`
(`calibrate_comprehensive.py`, 387-423)

Court detector state relevant to coordinate conversion: whether a manual
calibration is loaded (with its court dimensions).  With manual
calibration, `perspectiveTransform` output is already in metres; in the
automatic (neural-network) mode, the output lies in reference-court pixel
space and is converted to metres through the reference border constants.
-/

structure ManualCalib where
  width : ℚ
  length : ℚ
deriving Repr

def COURT_WIDTH_M : ℚ := 1097 / 100

def COURT_LENGTH_M : ℚ := 2377 / 100

def SINGLES_WIDTH_M : ℚ := 823 / 100

def court_width_px : ℚ := 1117

def court_height_px : ℚ := 2408

def top_bottom_border : ℚ := 549

def right_left_border : ℚ := 274

def pixel_to_court_coords (mc : Option ManualCalib) (H : Option Mat3)
    (p : Option (ℚ × ℚ)) : Option (ℚ × ℚ) :=
  match H, p with
  | some H, some p =>
    let c := perspectiveTransform H p
    match mc with
    | some _ => some c
    | none =>
      some ((c.1 - right_left_border) / court_width_px * COURT_WIDTH_M,
            (c.2 - top_bottom_border) / court_height_px * COURT_LENGTH_M)
  | _, _ => none

/-- `CourtDetector.is_in_court` with its `use_singles`/`margin` arguments
explicit (the source defaults are `True` and `0.3`). -/
def is_in_court (mc : Option ManualCalib) (x y : ℚ)
    (use_singles : Bool) (margin : ℚ) : Bool :=
  match mc with
  | some m =>
    decide ((-margin ≤ x ∧ x ≤ m.width + margin) ∧
            (-margin ≤ y ∧ y ≤ m.length + margin))
  | none =>
    let w := if use_singles then SINGLES_WIDTH_M else COURT_WIDTH_M
    decide ((-w / 2 - margin ≤ x ∧ x ≤ w / 2 + margin) ∧
            (-margin ≤ y ∧ y ≤ COURT_LENGTH_M + margin))

/-! ## `ShotSegmenter` (`calibrate_comprehensive.py`, 784-961)

`min_shot_frames = int(fps * 0.3)`.  A shot record carries the fields of
the dictionary `_create_shot` builds.  The per-frame homography list is
modelled as a total function from frame index, and the Python *set* of
bounce frames as a list in its iteration order (`shot_bounces[-1]` is the
last matching element of that order).
-/

def min_shot_frames (fps : ℚ) : ℕ :=
  (Int.floor (fps * (3 / 10))).toNat

structure Shot where
  start_frame : ℕ
  end_frame : ℕ
  contact_frame : ℕ
  landing_frame : ℕ
  landing_position_pixels : Option (ℚ × ℚ)
  landing_position_meters : Option (ℚ × ℚ)
  outcome : String
  ball_speed_mps : Option ℝ
  ball_speed_mph : Option ℝ
  duration_frames : ℤ
  duration_seconds : ℚ

/-- Velocity-maximum scan of `_create_shot`'s contact-point loop: walk the
candidate indices keeping the frame of the largest inter-frame pixel
displacement (strictly larger displacement replaces). -/
noncomputable def contactLoop (track : List (Option (ℚ × ℚ))) :
    List ℕ → ℕ × ℝ → ℕ × ℝ
  | [], st => st
  | i :: t, st =>
    match track.getD i none, track.getD (i - 1) none with
    | some p, some q =>
      let vel := eDist p q
      if vel > st.2 then contactLoop track t (i, vel) else contactLoop track t st
    | _, _ => contactLoop track t st

/-- The contact frame: velocity maximum over
`range(start + 1, min(search_end, len(ball_track)))` with
`search_end = start + (end - start) // 3`, starting from `start`. -/
noncomputable def contact_of (track : List (Option (ℚ × ℚ))) (s e : ℕ) : ℕ :=
  (contactLoop track
    (List.range' (s + 1) (min (s + (e - s) / 3) track.length - (s + 1)))
    (s, 0)).1

/-- The same scan over squared displacements (strictly monotone in the
displacement, hence selecting the same frame); used to evaluate traces. -/
def contactLoopSq (track : List (Option (ℚ × ℚ))) :
    List ℕ → ℕ × ℚ → ℕ × ℚ
  | [], st => st
  | i :: t, st =>
    match track.getD i none, track.getD (i - 1) none with
    | some p, some q =>
      let sq := (p.1 - q.1) ^ 2 + (p.2 - q.2) ^ 2
      if sq > st.2 then contactLoopSq track t (i, sq) else contactLoopSq track t st
    | _, _ => contactLoopSq track t st

/-- `ShotSegmenter._calculate_ball_speed`'s convertible samples: frames in
`range(start, min(end + 1, len(ball_track)))` with a ball position, an
available homography and a convertible court position. -/
def speedSamples (track : List (Option (ℚ × ℚ))) (homs : ℕ → Option Mat3)
    (mc : Option ManualCalib) (s e : ℕ) : List (ℕ × (ℚ × ℚ)) :=
  (List.range' s (min (e + 1) track.length - s)).filterMap (fun i =>
    match track.getD i none, homs i with
    | some p, some H =>
      match pixel_to_court_coords mc (some H) (some p) with
      | some c => some (i, c)
      | none => none
    | _, _ => none)

/-- `ShotSegmenter._calculate_ball_speed`: null with fewer than two
convertible samples, else total court-space distance over consecutive
samples divided by elapsed frames over fps. -/
noncomputable def calculate_ball_speed (track : List (Option (ℚ × ℚ)))
    (homs : ℕ → Option Mat3) (mc : Option ManualCalib) (fps : ℚ)
    (s e : ℕ) : Option ℝ :=
  let vp := speedSamples track homs mc s e
  if vp.length < 2 then none
  else
    let total_distance : ℝ := (List.zipWith (fun a b => eDist a.2 b.2) vp vp.tail).sum
    let total_frames : ℕ := (List.zipWith (fun a b => b.1 - a.1) vp vp.tail).sum
    if total_frames = 0 then none
    else some (total_distance / ((total_frames : ℝ) / ((fps : ℚ) : ℝ)))

/-- `ball_speed_mph`: `speed * 2.237 if speed else None` — Python
truthiness, so a zero speed also yields `None`. -/
noncomputable def mph_of (v : Option ℝ) : Option ℝ :=
  match v with
  | none => none
  | some v => if v = 0 then none else some (v * (2237 / 1000))

/-- `ShotSegmenter._create_shot`. -/
noncomputable def create_shot (msf : ℕ) (fps : ℚ)
    (track : List (Option (ℚ × ℚ))) (bounces : List ℕ)
    (homs : ℕ → Option Mat3) (mc : Option ManualCalib)
    (s e : ℕ) : Option Shot :=
  if (e : ℤ) - (s : ℤ) < (msf : ℤ) then none
  else
    let contact := contact_of track s e
    let sb := bounces.filter (fun b => decide (s ≤ b ∧ b ≤ e))
    let landing := (sb.getLast?).getD e
    let lp : Option (ℚ × ℚ) :=
      match sb.getLast? with
      | some b => track.getD b none
      | none => if e < track.length then track.getD e none else none
    let res : Option (ℚ × ℚ) × String :=
      match lp, homs landing with
      | some p, some H =>
        match pixel_to_court_coords mc (some H) (some p) with
        | some c =>
          (some c, if is_in_court mc c.1 c.2 true (3 / 10) then "in" else "out")
        | none => (none, "unknown")
      | _, _ => (none, "unknown")
    let speed := calculate_ball_speed track homs mc fps contact (min (contact + 5) e)
    some
      { start_frame := s
        end_frame := e
        contact_frame := contact
        landing_frame := landing
        landing_position_pixels := lp
        landing_position_meters := res.1
        outcome := res.2
        ball_speed_mps := speed
        ball_speed_mph := mph_of speed
        duration_frames := (e : ℤ) - (s : ℤ)
        duration_seconds := ((e : ℚ) - (s : ℚ)) / fps }

/-- `math.atan2` over the reals (signed zeros of the floating-point
version collapse to the single zero). -/
noncomputable def atan2R (y x : ℝ) : ℝ :=
  if 0 < x then Real.arctan (y / x)
  else if x < 0 ∧ 0 ≤ y then Real.arctan (y / x) + Real.pi
  else if x < 0 ∧ y < 0 then Real.arctan (y / x) - Real.pi
  else if 0 < y then Real.pi / 2
  else if y < 0 then -(Real.pi / 2)
  else 0

lemma atan2R_zero_pos (x : ℝ) (hx : 0 < x) : atan2R 0 x = 0 := by
  rw [atan2R, if_pos hx]
  simp

/-- The segmenter's per-video configuration and immutable inputs. -/
structure SegCfg where
  msf : ℕ
  fps : ℚ
  track : List (Option (ℚ × ℚ))
  bounces : List ℕ
  homs : ℕ → Option Mat3
  mc : Option ManualCalib

/-- The segmenter's loop state: shots emitted so far, the open shot's
start frame, the previous valid ball position, the previous direction. -/
structure SegState where
  shots : List Shot
  cur_start : Option ℕ
  prev_valid : Option (ℚ × ℚ)
  prev_dir : Option ℝ

noncomputable def create_shot_cfg (cfg : SegCfg) (s e : ℕ) : Option Shot :=
  create_shot cfg.msf cfg.fps cfg.track cfg.bounces cfg.homs cfg.mc s e

/-- Append the shot for `[s0, e]` when `_create_shot` yields one. -/
noncomputable def tryAppend (cfg : SegCfg) (s0 e : ℕ) (shots : List Shot) : List Shot :=
  match create_shot_cfg cfg s0 e with
  | some sh => shots ++ [sh]
  | none => shots

/-- Closing on a >90° direction reversal: the open shot (when any) is
closed at the previous frame, and a new shot opens at the current frame. -/
noncomputable def dirClose (cfg : SegCfg) (idx : ℕ) (st : SegState) : SegState :=
  match st.cur_start with
  | some s0 =>
    { st with shots := tryAppend cfg s0 (idx - 1) st.shots, cur_start := some idx }
  | none => { st with cur_start := some idx }

/-- The angle-change normalisation of the loop body: absolute direction
difference, folded into `[0, π]` when above `π`. -/
noncomputable def angleChange (dir pd : ℝ) : ℝ :=
  let ch0 := |dir - pd|
  if Real.pi < ch0 then 2 * Real.pi - ch0 else ch0

/-- The direction-reversal test: when a previous direction exists and the
angle change exceeds 90°, close the current shot. -/
noncomputable def dirUpdate (cfg : SegCfg) (idx : ℕ) (dir : ℝ) (st : SegState) :
    SegState :=
  match st.prev_dir with
  | none => st
  | some pd => if Real.pi / 2 < angleChange dir pd then dirClose cfg idx st else st

/-- `if current_shot_start is None: current_shot_start = frame_idx`. -/
noncomputable def openIfIdle (idx : ℕ) (st : SegState) : SegState :=
  match st.cur_start with
  | none => { st with cur_start := some idx }
  | some _ => st

/-- The direction block of `segment_shots`' loop body: on significant
movement relative to the previous valid position, compute the direction,
close the shot on a >90° reversal, open a shot if none is open, and
record the direction. -/
noncomputable def dirBlock (cfg : SegCfg) (idx : ℕ) (p : ℚ × ℚ)
    (st : SegState) : SegState :=
  match st.prev_valid with
  | none => st
  | some pv =>
    let dx := p.1 - pv.1
    let dy := p.2 - pv.2
    if 5 < |dx| ∨ 5 < |dy| then
      let dir := atan2R (dy : ℝ) (dx : ℝ)
      { openIfIdle idx (dirUpdate cfg idx dir st) with prev_dir := some dir }
    else st

/-- The bounce block of the loop body: at a bounce frame with an open
shot, close it at the current frame and return to idle. -/
noncomputable def bounceBlock (cfg : SegCfg) (idx : ℕ) (st : SegState) : SegState :=
  if idx ∈ cfg.bounces then
    match st.cur_start with
    | some s0 =>
      { st with shots := tryAppend cfg s0 idx st.shots, cur_start := none,
                prev_dir := none }
    | none => st
  else st

/-- One iteration of `segment_shots`' loop: frames with no ball detection
are skipped entirely; a valid frame runs the direction block, then the
bounce block, then records the position as the previous valid position. -/
noncomputable def segStep (cfg : SegCfg) (idx : ℕ) (fr : Option (ℚ × ℚ))
    (st : SegState) : SegState :=
  match fr with
  | none => st
  | some p => { bounceBlock cfg idx (dirBlock cfg idx p st) with prev_valid := some p }

noncomputable def segLoop (cfg : SegCfg) : ℕ → List (Option (ℚ × ℚ)) → SegState → SegState
  | _, [], st => st
  | idx, fr :: rest, st => segLoop cfg (idx + 1) rest (segStep cfg idx fr st)

def initSegState : SegState :=
  { shots := [], cur_start := none, prev_valid := none, prev_dir := none }

/-- `ShotSegmenter.segment_shots`: run the loop over all frames, then
close a still-open final shot when more than `min_shot_frames` frames
remain from its start to the end of the track. -/
noncomputable def segment_shots (fps : ℚ) (track : List (Option (ℚ × ℚ)))
    (bounces : List ℕ) (homs : ℕ → Option Mat3) (mc : Option ManualCalib) :
    List Shot :=
  let cfg : SegCfg :=
    { msf := min_shot_frames fps, fps := fps, track := track,
      bounces := bounces, homs := homs, mc := mc }
  let fin := segLoop cfg 0 track initSegState
  match fin.cur_start with
  | some s0 =>
    if cfg.msf < track.length - s0 then tryAppend cfg s0 (track.length - 1) fin.shots
    else fin.shots
  | none => fin.shots

lemma getLast?_mem' {α : Type} {l : List α} {a : α} (h : l.getLast? = some a) :
    a ∈ l := by
  obtain ⟨hne, heq⟩ := List.mem_getLast?_eq_getLast (show a ∈ l.getLast? by rw [h]; rfl)
  rw [heq]
  exact List.getLast_mem hne

lemma contactLoop_mem (track : List (Option (ℚ × ℚ))) :
    ∀ (l : List ℕ) (st : ℕ × ℝ),
      (contactLoop track l st).1 = st.1 ∨ (contactLoop track l st).1 ∈ l
  | [], st => Or.inl rfl
  | i :: t, st => by
    rw [contactLoop]
    split
    · rename_i p q hp hq
      by_cases hv : eDist p q > st.2
      · rw [if_pos hv]
        rcases contactLoop_mem track t (i, eDist p q) with h | h
        · exact Or.inr (List.mem_cons.mpr (Or.inl h))
        · exact Or.inr (List.mem_cons.mpr (Or.inr h))
      · rw [if_neg hv]
        rcases contactLoop_mem track t st with h | h
        · exact Or.inl h
        · exact Or.inr (List.mem_cons.mpr (Or.inr h))
    · rcases contactLoop_mem track t st with h | h
      · exact Or.inl h
      · exact Or.inr (List.mem_cons.mpr (Or.inr h))

lemma contact_of_bounds (track : List (Option (ℚ × ℚ))) (s e : ℕ) (hse : s ≤ e) :
    s ≤ contact_of track s e ∧ contact_of track s e ≤ e := by
  rw [contact_of]
  rcases contactLoop_mem track
      (List.range' (s + 1) (min (s + (e - s) / 3) track.length - (s + 1))) (s, 0)
    with h | h
  · rw [h]
    exact ⟨le_refl s, hse⟩
  · rw [List.mem_range'_1] at h
    obtain ⟨h1, h2⟩ := h
    constructor
    · omega
    · have h3 : s + 1 + (min (s + (e - s) / 3) track.length - (s + 1))
          ≤ s + (e - s) / 3 ∨ min (s + (e - s) / 3) track.length - (s + 1) = 0 := by
        omega
      have h4 : (e - s) / 3 ≤ e - s := Nat.div_le_self _ _
      omega

lemma landing_of_bounds (bounces : List ℕ) (s e : ℕ) (hse : s ≤ e) :
    s ≤ ((bounces.filter (fun b => decide (s ≤ b ∧ b ≤ e))).getLast?).getD e ∧
    ((bounces.filter (fun b => decide (s ≤ b ∧ b ≤ e))).getLast?).getD e ≤ e := by
  cases hl : (bounces.filter (fun b => decide (s ≤ b ∧ b ≤ e))).getLast? with
  | none =>
    simp only [Option.getD_none]
    exact ⟨hse, le_refl e⟩
  | some b =>
    have hmem := getLast?_mem' hl
    have hb := (List.mem_filter.mp hmem).2
    simp only [decide_eq_true_eq] at hb
    simp only [Option.getD_some]
    exact hb

lemma p2cc_some (mc : Option ManualCalib) (H : Mat3) (p : ℚ × ℚ) :
    ∃ c, pixel_to_court_coords mc (some H) (some p) = some c := by
  cases mc <;> simp [pixel_to_court_coords]

lemma create_shot_some (msf : ℕ) (fps : ℚ) (track : List (Option (ℚ × ℚ)))
    (bounces : List ℕ) (homs : ℕ → Option Mat3) (mc : Option ManualCalib)
    (s e : ℕ) (sh : Shot)
    (h : create_shot msf fps track bounces homs mc s e = some sh) :
    (msf : ℤ) ≤ (e : ℤ) - (s : ℤ) ∧
    sh.start_frame = s ∧ sh.end_frame = e ∧
    sh.contact_frame = contact_of track s e ∧
    sh.landing_frame
      = ((bounces.filter (fun b => decide (s ≤ b ∧ b ≤ e))).getLast?).getD e := by
  rw [create_shot] at h
  split at h
  · exact absurd h (by simp)
  · rename_i hge
    simp only [Option.some.injEq] at h
    refine ⟨not_lt.mp hge, ?_, ?_, ?_, ?_⟩ <;> rw [← h]

lemma create_shot_outcome (msf : ℕ) (fps : ℚ) (track : List (Option (ℚ × ℚ)))
    (bounces : List ℕ) (homs : ℕ → Option Mat3) (mc : Option ManualCalib)
    (s e : ℕ) (sh : Shot)
    (h : create_shot msf fps track bounces homs mc s e = some sh) :
    (sh.outcome = "unknown" ↔
      (sh.landing_position_pixels = none ∨ homs sh.landing_frame = none)) ∧
    (∀ p H c, sh.landing_position_pixels = some p → homs sh.landing_frame = some H →
      pixel_to_court_coords mc (some H) (some p) = some c →
      sh.landing_position_meters = some c ∧
      (sh.outcome = "in" ↔ is_in_court mc c.1 c.2 true (3 / 10) = true) ∧
      (sh.outcome = "out" ↔ is_in_court mc c.1 c.2 true (3 / 10) = false)) := by
  rw [create_shot] at h
  split at h
  · exact absurd h (by simp)
  · simp only [Option.some.injEq] at h
    subst h
    dsimp only
    cases hlp :
        (match (bounces.filter (fun b => decide (s ≤ b ∧ b ≤ e))).getLast? with
          | some b => track.getD b none
          | none => if e < track.length then track.getD e none else none :
          Option (ℚ × ℚ)) with
    | none =>
      constructor
      · simp
      · intro p H c hp
        exact absurd hp (by simp)
    | some p0 =>
      cases hH : homs
          (((bounces.filter (fun b => decide (s ≤ b ∧ b ≤ e))).getLast?).getD e) with
      | none =>
        constructor
        · simp
        · intro p H c hp hH'
          exact absurd hH' (by simp [hH])
      | some H0 =>
        obtain ⟨c0, hc0⟩ := p2cc_some mc H0 p0
        simp only [hc0]
        constructor
        · by_cases hin : is_in_court mc c0.1 c0.2 true (3 / 10)
          · rw [if_pos hin]
            simp
          · rw [if_neg hin]
            simp
        · intro p H c hp hH' hc
          simp only [Option.some.injEq] at hp hH'
          rw [← hp, ← hH'] at hc
          rw [hc0] at hc
          simp only [Option.some.injEq] at hc
          subst hc
          refine ⟨rfl, ?_, ?_⟩
          · by_cases hin : is_in_court mc c0.1 c0.2 true (3 / 10)
            · rw [if_pos hin]
              simp [hin]
            · rw [if_neg hin]
              constructor
              · intro hbad
                exact absurd hbad (by decide)
              · intro htrue
                exact absurd htrue (by simp [hin])
          · by_cases hin : is_in_court mc c0.1 c0.2 true (3 / 10)
            · rw [if_pos hin]
              constructor
              · intro hbad
                exact absurd hbad (by decide)
              · intro hfalse
                rw [hin] at hfalse
                exact absurd hfalse (by decide)
            · rw [if_neg hin]
              simp [Bool.not_eq_true] at hin
              simp [hin]

/-! ### Provenance: every emitted shot comes from `_create_shot` -/

lemma tryAppend_sub (cfg : SegCfg) (s0 e : ℕ) (shots : List Shot) :
    ∀ sh ∈ tryAppend cfg s0 e shots,
      sh ∈ shots ∨ create_shot_cfg cfg s0 e = some sh := by
  intro sh hsh
  rw [tryAppend] at hsh
  split at hsh
  · rename_i sh' heq
    rcases List.mem_append.mp hsh with h | h
    · exact Or.inl h
    · simp only [List.mem_singleton] at h
      exact Or.inr (h ▸ heq)
  · exact Or.inl hsh

def Created (cfg : SegCfg) (sh : Shot) : Prop :=
  ∃ s e, create_shot_cfg cfg s e = some sh

lemma dirClose_sub (cfg : SegCfg) (idx : ℕ) (st : SegState) :
    ∀ sh ∈ (dirClose cfg idx st).shots, sh ∈ st.shots ∨ Created cfg sh := by
  intro sh hsh
  rw [dirClose] at hsh
  split at hsh
  · rename_i s0 hs0
    rcases tryAppend_sub cfg s0 (idx - 1) st.shots sh hsh with h | h
    · exact Or.inl h
    · exact Or.inr ⟨s0, idx - 1, h⟩
  · exact Or.inl hsh

lemma dirClose_start (cfg : SegCfg) (idx : ℕ) (st : SegState) :
    (dirClose cfg idx st).cur_start = some idx := by
  rw [dirClose]
  split <;> rfl

lemma dirUpdate_sub (cfg : SegCfg) (idx : ℕ) (dir : ℝ) (st : SegState) :
    ∀ sh ∈ (dirUpdate cfg idx dir st).shots, sh ∈ st.shots ∨ Created cfg sh := by
  intro sh hsh
  rw [dirUpdate] at hsh
  split at hsh
  · exact Or.inl hsh
  · split at hsh
    · exact dirClose_sub cfg idx st sh hsh
    · exact Or.inl hsh

lemma dirUpdate_start (cfg : SegCfg) (idx : ℕ) (dir : ℝ) (st : SegState) :
    ∀ s0, (dirUpdate cfg idx dir st).cur_start = some s0 →
      st.cur_start = some s0 ∨ s0 = idx := by
  intro s0 h
  rw [dirUpdate] at h
  split at h
  · exact Or.inl h
  · split at h
    · rw [dirClose_start] at h
      simp only [Option.some.injEq] at h
      exact Or.inr h.symm
    · exact Or.inl h

lemma openIfIdle_shots (idx : ℕ) (st : SegState) :
    (openIfIdle idx st).shots = st.shots := by
  rw [openIfIdle]
  split <;> rfl

lemma openIfIdle_start (idx : ℕ) (st : SegState) :
    ∀ s0, (openIfIdle idx st).cur_start = some s0 →
      st.cur_start = some s0 ∨ s0 = idx := by
  intro s0 h
  rw [openIfIdle] at h
  split at h
  · simp only [Option.some.injEq] at h
    exact Or.inr h.symm
  · exact Or.inl h

lemma dirBlock_sub (cfg : SegCfg) (idx : ℕ) (p : ℚ × ℚ) (st : SegState) :
    ∀ sh ∈ (dirBlock cfg idx p st).shots, sh ∈ st.shots ∨ Created cfg sh := by
  intro sh hsh
  rw [dirBlock] at hsh
  split at hsh
  · exact Or.inl hsh
  · dsimp only at hsh
    split at hsh
    · simp only [openIfIdle_shots] at hsh
      exact dirUpdate_sub cfg idx _ st sh hsh
    · exact Or.inl hsh

lemma dirBlock_start (cfg : SegCfg) (idx : ℕ) (p : ℚ × ℚ) (st : SegState) :
    ∀ s0, (dirBlock cfg idx p st).cur_start = some s0 →
      st.cur_start = some s0 ∨ s0 = idx := by
  intro s0 h
  rw [dirBlock] at h
  split at h
  · exact Or.inl h
  · dsimp only at h
    split at h
    · have h' : (openIfIdle idx (dirUpdate cfg idx _ st)).cur_start = some s0 := h
      rcases openIfIdle_start _ _ _ h' with h2 | h2
      · exact dirUpdate_start cfg idx _ st s0 h2
      · exact Or.inr h2
    · exact Or.inl h

lemma bounceBlock_sub (cfg : SegCfg) (idx : ℕ) (st : SegState) :
    ∀ sh ∈ (bounceBlock cfg idx st).shots, sh ∈ st.shots ∨ Created cfg sh := by
  intro sh hsh
  rw [bounceBlock] at hsh
  split at hsh
  · split at hsh
    · rename_i s0 hs0
      rcases tryAppend_sub cfg s0 idx st.shots sh hsh with h | h
      · exact Or.inl h
      · exact Or.inr ⟨s0, idx, h⟩
    · exact Or.inl hsh
  · exact Or.inl hsh

lemma bounceBlock_start (cfg : SegCfg) (idx : ℕ) (st : SegState) :
    ∀ s0, (bounceBlock cfg idx st).cur_start = some s0 →
      st.cur_start = some s0 := by
  intro s0 h
  rw [bounceBlock] at h
  split at h
  · split at h
    · exact absurd h (by simp)
    · exact h
  · exact h

lemma segStep_sub (cfg : SegCfg) (idx : ℕ) (fr : Option (ℚ × ℚ)) (st : SegState) :
    ∀ sh ∈ (segStep cfg idx fr st).shots, sh ∈ st.shots ∨ Created cfg sh := by
  intro sh hsh
  rw [segStep.eq_def] at hsh
  split at hsh
  · exact Or.inl hsh
  · rename_i p
    have hsh' : sh ∈ (bounceBlock cfg idx (dirBlock cfg idx p st)).shots := hsh
    rcases bounceBlock_sub cfg idx (dirBlock cfg idx p st) sh hsh' with h | h
    · exact dirBlock_sub cfg idx p st sh h
    · exact Or.inr h
  
lemma segStep_start (cfg : SegCfg) (idx : ℕ) (fr : Option (ℚ × ℚ)) (st : SegState)
    (hstart : ∀ s0, st.cur_start = some s0 → s0 < idx) :
    ∀ s0, (segStep cfg idx fr st).cur_start = some s0 → s0 < idx + 1 := by
  intro s0 h
  rw [segStep.eq_def] at h
  split at h
  · exact Nat.lt_succ_of_lt (hstart s0 h)
  · rename_i p
    have h' : (dirBlock cfg idx p st).cur_start = some s0 := bounceBlock_start _ _ _ _ h
    rcases dirBlock_start cfg idx p st s0 h' with h2 | h2
    · exact Nat.lt_succ_of_lt (hstart s0 h2)
    · omega

lemma segLoop_sub (cfg : SegCfg) :
    ∀ (rest : List (Option (ℚ × ℚ))) (idx : ℕ) (st : SegState),
      (∀ s0, st.cur_start = some s0 → s0 < idx) →
      (∀ s0, (segLoop cfg idx rest st).cur_start = some s0 → s0 < idx + rest.length) ∧
      (∀ sh ∈ (segLoop cfg idx rest st).shots, sh ∈ st.shots ∨ Created cfg sh)
  | [], idx, st => by
    intro hstart
    refine ⟨?_, ?_⟩
    · intro s0 h
      have := hstart s0 h
      simpa using Nat.lt_of_lt_of_le this (by omega)
    · intro sh hsh
      exact Or.inl hsh
  | fr :: rest, idx, st => by
    intro hstart
    obtain ⟨h1, h2⟩ := segLoop_sub cfg rest (idx + 1) (segStep cfg idx fr st)
      (segStep_start cfg idx fr st hstart)
    refine ⟨?_, ?_⟩
    · intro s0 h
      have := h1 s0 h
      simp only [List.length_cons]
      omega
    · intro sh hsh
      rcases h2 sh hsh with h | h
      · exact segStep_sub cfg idx fr st sh h
      · exact Or.inr h

lemma segment_shots_provenance (fps : ℚ) (track : List (Option (ℚ × ℚ)))
    (bounces : List ℕ) (homs : ℕ → Option Mat3) (mc : Option ManualCalib) :
    ∀ sh ∈ segment_shots fps track bounces homs mc,
      ∃ s e, create_shot (min_shot_frames fps) fps track bounces homs mc s e
        = some sh := by
  intro sh hsh
  rw [segment_shots] at hsh
  revert hsh
  have hinit : ∀ s0, (initSegState).cur_start = some s0 → s0 < 0 := by
    intro s0 h
    exact absurd h (by simp [initSegState])
  obtain ⟨h1, h2⟩ := segLoop_sub
    { msf := min_shot_frames fps, fps := fps, track := track,
      bounces := bounces, homs := homs, mc := mc } track 0 initSegState hinit
  split
  · rename_i s0 hs0
    split
    · intro hsh
      rcases tryAppend_sub _ s0 (track.length - 1) _ sh hsh with h | h
      · rcases h2 sh h with h' | h'
        · exact absurd h' (by simp [initSegState])
        · exact h'
      · exact ⟨s0, track.length - 1, h⟩
    · intro hsh
      rcases h2 sh hsh with h' | h'
      · exact absurd h' (by simp [initSegState])
      · exact h'
  · intro hsh
    rcases h2 sh hsh with h' | h'
    · exact absurd h' (by simp [initSegState])
    · exact h'

/-- **C4 (amended).**  Every shot emitted by the shot segmenter, for every
input trajectory, bounce list and per-frame homography assignment,
satisfies `start_frame ≤ contact_frame ≤ end_frame`,
`start_frame ≤ landing_frame ≤ end_frame` and
`end_frame − start_frame ≥ min_shot_frames` (`int(fps·0.3)` frames).  The
chain `contact_frame ≤ landing_frame` of the original claim is *not*
guaranteed: a bounce at a frame with no ball detection is never consumed
by the loop's bounce test and can land inside a later shot's span before
its contact frame (see the counterexample). -/
theorem C4_shot_invariants (fps : ℚ) (track : List (Option (ℚ × ℚ)))
    (bounces : List ℕ) (homs : ℕ → Option Mat3) (mc : Option ManualCalib) :
    ∀ sh ∈ segment_shots fps track bounces homs mc,
      sh.start_frame ≤ sh.contact_frame ∧ sh.contact_frame ≤ sh.end_frame ∧
      sh.start_frame ≤ sh.landing_frame ∧ sh.landing_frame ≤ sh.end_frame ∧
      (min_shot_frames fps : ℤ) ≤ (sh.end_frame : ℤ) - (sh.start_frame : ℤ) := by
  intro sh hsh
  obtain ⟨s, e, hc⟩ := segment_shots_provenance fps track bounces homs mc sh hsh
  obtain ⟨hd, hs, he, hcon, hland⟩ := create_shot_some _ _ _ _ _ _ _ _ _ hc
  have hse : s ≤ e := by omega
  obtain ⟨h1, h2⟩ := contact_of_bounds track s e hse
  obtain ⟨h3, h4⟩ := landing_of_bounds bounces s e hse
  refine ⟨?_, ?_, ?_, ?_, ?_⟩
  · rw [hs, hcon]
    exact h1
  · rw [he, hcon]
    exact h2
  · rw [hs, hland]
    exact h3
  · rw [he, hland]
    exact h4
  · rw [hs, he]
    exact hd

/-- **C5 (amended).**  For every shot produced by the segmenter, the
outcome is `"unknown"` iff the landing *position* is missing or no
homography is available at the landing frame — a missing landing position
yields `"unknown"` even when a homography is available.  When both are
present, the outcome is `"in"` or `"out"` according to
`CourtDetector.is_in_court` on the converted court coordinates: under
manual calibration both axes must lie within `[−margin, dimension+margin]`
as the claim states, while under automatic calibration the x-axis interval
is the centered `[−width/2 − margin, width/2 + margin]`. -/
theorem C5_outcome_classification (fps : ℚ) (track : List (Option (ℚ × ℚ)))
    (bounces : List ℕ) (homs : ℕ → Option Mat3) (mc : Option ManualCalib) :
    ∀ sh ∈ segment_shots fps track bounces homs mc,
      (sh.outcome = "unknown" ↔
        (sh.landing_position_pixels = none ∨ homs sh.landing_frame = none)) ∧
      (∀ p H c, sh.landing_position_pixels = some p →
        homs sh.landing_frame = some H →
        pixel_to_court_coords mc (some H) (some p) = some c →
        sh.landing_position_meters = some c ∧
        (sh.outcome = "in" ↔ is_in_court mc c.1 c.2 true (3 / 10) = true) ∧
        (sh.outcome = "out" ↔ is_in_court mc c.1 c.2 true (3 / 10) = false)) := by
  intro sh hsh
  obtain ⟨s, e, hc⟩ := segment_shots_provenance fps track bounces homs mc sh hsh
  exact create_shot_outcome _ _ _ _ _ _ _ _ _ hc

lemma create_shot_speed (msf : ℕ) (fps : ℚ) (track : List (Option (ℚ × ℚ)))
    (bounces : List ℕ) (homs : ℕ → Option Mat3) (mc : Option ManualCalib)
    (s e : ℕ) (sh : Shot)
    (h : create_shot msf fps track bounces homs mc s e = some sh) :
    sh.ball_speed_mps
      = calculate_ball_speed track homs mc fps sh.contact_frame
          (min (sh.contact_frame + 5) sh.end_frame) := by
  rw [create_shot] at h
  split at h
  · exact absurd h (by simp)
  · simp only [Option.some.injEq] at h
    rw [← h]

lemma speedSamples_pairwise (track : List (Option (ℚ × ℚ))) (homs : ℕ → Option Mat3)
    (mc : Option ManualCalib) (s e : ℕ) :
    (speedSamples track homs mc s e).Pairwise (fun a b => a.1 < b.1) := by
  rw [speedSamples]
  have hp : (List.range' s (min (e + 1) track.length - s)).Pairwise (· < ·) := by
    rw [List.range'_eq_map_range]
    exact (List.pairwise_lt_range _).map _ (fun a b h => by omega)
  refine List.Pairwise.filterMap _ ?_ hp
  intro a a' haa b hb b' hb'
  have hb1 : b.1 = a := by
    revert hb
    split
    · split
      · intro hb
        simp only [Option.mem_def, Option.some.injEq] at hb
        rw [← hb]
      · intro hb
        simp at hb
    · intro hb
      simp at hb
  have hb2 : b'.1 = a' := by
    revert hb'
    split
    · split
      · intro hb'
        simp only [Option.mem_def, Option.some.injEq] at hb'
        rw [← hb']
      · intro hb'
        simp at hb'
    · intro hb'
      simp at hb'
  rw [hb1, hb2]
  exact haa

lemma frames_sum_ne_zero :
    ∀ (vp : List (ℕ × (ℚ × ℚ))), 2 ≤ vp.length →
      vp.Pairwise (fun a b => a.1 < b.1) →
      (List.zipWith (fun a b => b.1 - a.1) vp vp.tail).sum ≠ 0 := by
  intro vp h2 hp
  match vp with
  | a :: b :: t =>
    have hab : a.1 < b.1 := (List.pairwise_cons.mp hp).1 b (List.mem_cons_self _ _)
    have : (List.zipWith (fun a b => b.1 - a.1) (a :: b :: t) (b :: t)).sum
        = (b.1 - a.1) + (List.zipWith (fun a b => b.1 - a.1) (b :: t) t).sum := by
      rfl
    rw [List.tail_cons, this]
    omega

lemma calc_speed_formula (track : List (Option (ℚ × ℚ))) (homs : ℕ → Option Mat3)
    (mc : Option ManualCalib) (fps : ℚ) (s e : ℕ)
    (hge : 2 ≤ (speedSamples track homs mc s e).length) :
    calculate_ball_speed track homs mc fps s e
      = some
        ((List.zipWith (fun a b => eDist a.2 b.2) (speedSamples track homs mc s e)
            (speedSamples track homs mc s e).tail).sum /
          ((((List.zipWith (fun a b => b.1 - a.1) (speedSamples track homs mc s e)
              (speedSamples track homs mc s e).tail).sum : ℕ) : ℝ) / ((fps : ℚ) : ℝ))) := by
  rw [calculate_ball_speed, if_neg (by omega),
      if_neg (frames_sum_ne_zero _ hge (speedSamples_pairwise track homs mc s e))]

/-- Manual calibration with singles-court dimensions. -/
def mcMan : ManualCalib := { width := 823 / 100, length := 2377 / 100 }

/-- Six frames: ball at `(0, 0)` in frame 0 and at `(3, 4)` in frame 5
(court metres under manual calibration with the identity homography), a
straight-line separation of exactly 5 m over 5 frames. -/
def track7 : List (Option (ℚ × ℚ)) :=
  [some (0, 0), none, none, none, none, some (3, 4)]

lemma speedSamples7 :
    speedSamples track7 (fun _ => some Mat3.one) (some mcMan) 0 5
      = [(0, ((0 : ℚ), (0 : ℚ))), (5, (3, 4))] := by
  have h : speedSamples track7 (fun _ => some Mat3.one) (some mcMan) 0 5
      = [(0, perspectiveTransform Mat3.one (0, 0)),
         (5, perspectiveTransform Mat3.one (3, 4))] := rfl
  rw [h, PT_one, PT_one]

/-- **C7.**  Ball speed: for every trajectory, homography assignment,
calibration mode, fps and window, the speed is null exactly when fewer
than two convertible samples exist; with at least two samples it equals
the total consecutive court-space Euclidean distance divided by the total
elapsed frame count over fps (the `total_frames == 0` branch is dead:
sample frames strictly increase).  Every shot's stored speed is computed
over the window from its contact frame to `min(contact+5, end)`.  And the
concrete instance: two samples 5 frames apart at 30 fps, exactly 5 m of
straight-line court distance apart, give 5 / (5/30) = 30 m/s. -/
theorem C7_ball_speed :
    (∀ (track : List (Option (ℚ × ℚ))) (homs : ℕ → Option Mat3)
        (mc : Option ManualCalib) (fps : ℚ) (s e : ℕ),
      (speedSamples track homs mc s e).length < 2 →
        calculate_ball_speed track homs mc fps s e = none) ∧
    (∀ (track : List (Option (ℚ × ℚ))) (homs : ℕ → Option Mat3)
        (mc : Option ManualCalib) (fps : ℚ) (s e : ℕ),
      2 ≤ (speedSamples track homs mc s e).length →
        calculate_ball_speed track homs mc fps s e
          = some
            ((List.zipWith (fun a b => eDist a.2 b.2) (speedSamples track homs mc s e)
                (speedSamples track homs mc s e).tail).sum /
              ((((List.zipWith (fun a b => b.1 - a.1) (speedSamples track homs mc s e)
                  (speedSamples track homs mc s e).tail).sum : ℕ) : ℝ) / ((fps : ℚ) : ℝ)))) ∧
    (∀ (fps : ℚ) (track : List (Option (ℚ × ℚ))) (bounces : List ℕ)
        (homs : ℕ → Option Mat3) (mc : Option ManualCalib),
      ∀ sh ∈ segment_shots fps track bounces homs mc,
        sh.ball_speed_mps
          = calculate_ball_speed track homs mc fps sh.contact_frame
              (min (sh.contact_frame + 5) sh.end_frame)) ∧
    calculate_ball_speed track7 (fun _ => some Mat3.one) (some mcMan) 30 0 5
      = some 30 := by
  refine ⟨?_, ?_, ?_, ?_⟩
  · intro track homs mc fps s e hlt
    rw [calculate_ball_speed, if_pos hlt]
  · intro track homs mc fps s e hge
    exact calc_speed_formula track homs mc fps s e hge
  · intro fps track bounces homs mc sh hsh
    obtain ⟨s, e, hc⟩ := segment_shots_provenance fps track bounces homs mc sh hsh
    exact create_shot_speed _ _ _ _ _ _ _ _ _ hc
  · rw [calc_speed_formula _ _ _ _ _ _ (by rw [speedSamples7]; norm_num),
        speedSamples7]
    simp only [List.tail_cons, List.zipWith_cons_cons, List.zipWith_nil_right,
      List.sum_cons, List.sum_nil]
    rw [eDist_eq_of_sq ((0 : ℚ), (0 : ℚ)) ((3 : ℚ), (4 : ℚ)) 5 (by norm_num) (by norm_num)]
    norm_num

/-! ### Step-evaluation lemmas for concrete traces -/

lemma segStep_none (cfg : SegCfg) (idx : ℕ) (st : SegState) :
    segStep cfg idx none st = st := rfl

lemma segStep_some (cfg : SegCfg) (idx : ℕ) (p : ℚ × ℚ) (st : SegState) :
    segStep cfg idx (some p) st
      = { bounceBlock cfg idx (dirBlock cfg idx p st) with prev_valid := some p } := rfl

lemma segLoop_nil (cfg : SegCfg) (idx : ℕ) (st : SegState) :
    segLoop cfg idx [] st = st := rfl

lemma segLoop_cons (cfg : SegCfg) (idx : ℕ) (fr : Option (ℚ × ℚ))
    (rest : List (Option (ℚ × ℚ))) (st : SegState) :
    segLoop cfg idx (fr :: rest) st
      = segLoop cfg (idx + 1) rest (segStep cfg idx fr st) := rfl

lemma dirBlock_no_pv (cfg : SegCfg) (idx : ℕ) (p : ℚ × ℚ) (st : SegState)
    (h : st.prev_valid = none) : dirBlock cfg idx p st = st := by
  rw [dirBlock, h]

lemma dirBlock_move (cfg : SegCfg) (idx : ℕ) (p pv : ℚ × ℚ) (st : SegState)
    (d : ℝ) (h : st.prev_valid = some pv)
    (hm : 5 < |p.1 - pv.1| ∨ 5 < |p.2 - pv.2|)
    (hd : atan2R ((p.2 - pv.2 : ℚ) : ℝ) ((p.1 - pv.1 : ℚ) : ℝ) = d) :
    dirBlock cfg idx p st
      = { openIfIdle idx (dirUpdate cfg idx d st) with prev_dir := some d } := by
  rw [dirBlock]
  simp only [h]
  rw [if_pos hm, hd]

lemma atan2R_cast_zero (a b : ℚ) (ha : a = 0) (hb : 0 < b) :
    atan2R ((a : ℚ) : ℝ) ((b : ℚ) : ℝ) = 0 := by
  subst ha
  rw [show ((0 : ℚ) : ℝ) = (0 : ℝ) from by norm_num]
  exact atan2R_zero_pos _ (by exact_mod_cast hb)

lemma dirUpdate_no_pd (cfg : SegCfg) (idx : ℕ) (dir : ℝ) (st : SegState)
    (h : st.prev_dir = none) : dirUpdate cfg idx dir st = st := by
  rw [dirUpdate, h]

lemma dirUpdate_keep (cfg : SegCfg) (idx : ℕ) (dir pd : ℝ) (st : SegState)
    (h : st.prev_dir = some pd) (hch : ¬(Real.pi / 2 < angleChange dir pd)) :
    dirUpdate cfg idx dir st = st := by
  rw [dirUpdate, h]
  exact if_neg hch

lemma angleChange_self (d : ℝ) : angleChange d d = 0 := by
  rw [angleChange]
  rw [sub_self, abs_zero, if_neg (not_lt.mpr (le_of_lt Real.pi_pos))]

lemma not_half_pi_lt_zero : ¬(Real.pi / 2 < 0) :=
  not_lt.mpr (le_of_lt (by positivity))

lemma openIfIdle_none (idx : ℕ) (st : SegState) (h : st.cur_start = none) :
    openIfIdle idx st = { st with cur_start := some idx } := by
  rw [openIfIdle, h]

lemma openIfIdle_some (idx s0 : ℕ) (st : SegState) (h : st.cur_start = some s0) :
    openIfIdle idx st = st := by
  rw [openIfIdle, h]

lemma bounceBlock_no (cfg : SegCfg) (idx : ℕ) (st : SegState)
    (h : idx ∉ cfg.bounces) : bounceBlock cfg idx st = st := by
  rw [bounceBlock, if_neg h]

lemma bounceBlock_yes (cfg : SegCfg) (idx s0 : ℕ) (st : SegState)
    (h : idx ∈ cfg.bounces) (h2 : st.cur_start = some s0) :
    bounceBlock cfg idx st
      = { st with shots := tryAppend cfg s0 idx st.shots, cur_start := none,
                  prev_dir := none } := by
  rw [bounceBlock, if_pos h, h2]

lemma contactLoop_eq_sq (track : List (Option (ℚ × ℚ))) :
    ∀ (l : List ℕ) (n : ℕ) (q : ℚ), 0 ≤ q →
      (contactLoop track l (n, Real.sqrt ((q : ℚ) : ℝ))).1
        = (contactLoopSq track l (n, q)).1
  | [], n, q => by
    intro _
    rfl
  | i :: t, n, q => by
    intro hq
    rw [contactLoop, contactLoopSq]
    split
    · rename_i p p' hp hp'
      dsimp only
      have hsq : (0 : ℚ) ≤ (p.1 - p'.1) ^ 2 + (p.2 - p'.2) ^ 2 := by positivity
      by_cases hlt : q < (p.1 - p'.1) ^ 2 + (p.2 - p'.2) ^ 2
      · rw [if_pos (by
            show Real.sqrt ((q : ℚ) : ℝ) < eDist p p'
            rw [eDist]
            exact Real.sqrt_lt_sqrt (by exact_mod_cast hq) (by exact_mod_cast hlt)),
          if_pos hlt]
        exact contactLoop_eq_sq track t i _ hsq
      · rw [if_neg (by
            show ¬ Real.sqrt ((q : ℚ) : ℝ) < eDist p p'
            rw [eDist]
            exact not_lt.mpr (Real.sqrt_le_sqrt (by exact_mod_cast not_lt.mp hlt))),
          if_neg hlt]
        exact contactLoop_eq_sq track t n q hq
    · exact contactLoop_eq_sq track t n q hq

lemma contact_of_eq_sq (track : List (Option (ℚ × ℚ))) (s e : ℕ) :
    contact_of track s e
      = (contactLoopSq track
          (List.range' (s + 1) (min (s + (e - s) / 3) track.length - (s + 1)))
          (s, 0)).1 := by
  rw [contact_of,
      show ((s, (0 : ℝ)) : ℕ × ℝ) = (s, Real.sqrt (((0 : ℚ) : ℚ) : ℝ)) from by norm_num]
  exact contactLoop_eq_sq track _ s 0 le_rfl

/-! ### C5: a concrete run with homographies on every frame -/

/-- Pixel→reference translation chosen so that pixel `(1000, 1000)` maps
to reference-court coordinates converting to exactly `(−2, 5)` metres in
automatic mode. -/
def Hc : Mat3 :=
  { m00 := 1, m01 := 0, m02 := 77178 / 1097 - 1000
    m10 := 0, m11 := 1, m12 := 2508973 / 2377 - 1000
    m20 := 0, m21 := 0, m22 := 1 }

def homsHc : ℕ → Option Mat3 := fun _ => some Hc

/-- Six ball detections moving right 100 px per frame through
`(1000, 1000)` at frame 3 (the bounce frame), with the last frame
missing. -/
def trackC5 : List (Option (ℚ × ℚ)) :=
  [some (700, 1000), some (800, 1000), some (900, 1000), some (1000, 1000),
   some (1100, 1000), some (1200, 1000), none]

noncomputable def cfgC5 : SegCfg :=
  { msf := min_shot_frames 4, fps := 4, track := trackC5,
    bounces := [3], homs := homsHc, mc := none }

lemma msf4 : min_shot_frames 4 = 1 := by
  rw [min_shot_frames,
      show ((4 : ℚ) * (3 / 10)) = 6 / 5 from by norm_num,
      show Int.floor ((6 : ℚ) / 5) = 1 from by
        rw [Int.floor_eq_iff] <;> norm_num]
  rfl

lemma p2ccC5 :
    pixel_to_court_coords none (some Hc) (some ((1000 : ℚ), (1000 : ℚ)))
      = some (-2, 5) := by
  rw [pixel_to_court_coords]
  norm_num [perspectiveTransform, Mat3.applyH, Hc, right_left_border,
    court_width_px, COURT_WIDTH_M, top_bottom_border, court_height_px,
    COURT_LENGTH_M]

lemma inCourtC5 : is_in_court none (-2) 5 true (3 / 10) = true := by
  rw [is_in_court]
  norm_num [SINGLES_WIDTH_M, COURT_LENGTH_M]

lemma traceC5 :
    segLoop cfgC5 0 trackC5 initSegState
      = { shots := tryAppend cfgC5 1 3 [], cur_start := some 4,
          prev_valid := some (1200, 1000), prev_dir := some 0 } := by
  have hz : ∀ x y : ℚ, x = 0 → 0 < y →
      atan2R ((x : ℚ) : ℝ) ((y : ℚ) : ℝ) = (0 : ℝ) := fun x y hx hy =>
    atan2R_cast_zero x y hx hy
  have e0 : segStep cfgC5 0 (some (700, 1000)) initSegState
      = { shots := [], cur_start := none, prev_valid := some (700, 1000),
          prev_dir := none } := by
    rw [segStep_some, dirBlock_no_pv _ _ _ _ rfl, bounceBlock_no _ _ _ (by decide)]
    rfl
  have e1 : segStep cfgC5 1 (some (800, 1000))
      { shots := [], cur_start := none, prev_valid := some (700, 1000),
        prev_dir := none }
      = { shots := [], cur_start := some 1, prev_valid := some (800, 1000),
          prev_dir := some 0 } := by
    rw [segStep_some,
        dirBlock_move _ _ _ (700, 1000) _ 0 rfl (Or.inl (by norm_num))
          (by apply hz <;> norm_num),
        dirUpdate_no_pd _ _ _ _ rfl, openIfIdle_none _ _ rfl,
        bounceBlock_no _ _ _ (by decide)]
  have e2 : segStep cfgC5 2 (some (900, 1000))
      { shots := [], cur_start := some 1, prev_valid := some (800, 1000),
        prev_dir := some 0 }
      = { shots := [], cur_start := some 1, prev_valid := some (900, 1000),
          prev_dir := some 0 } := by
    rw [segStep_some,
        dirBlock_move _ _ _ (800, 1000) _ 0 rfl (Or.inl (by norm_num))
          (by apply hz <;> norm_num),
        dirUpdate_keep _ _ _ 0 _ rfl (by rw [angleChange_self]; exact not_half_pi_lt_zero),
        openIfIdle_some _ 1 _ rfl, bounceBlock_no _ _ _ (by decide)]
  have e3 : segStep cfgC5 3 (some (1000, 1000))
      { shots := [], cur_start := some 1, prev_valid := some (900, 1000),
        prev_dir := some 0 }
      = { shots := tryAppend cfgC5 1 3 [], cur_start := none,
          prev_valid := some (1000, 1000), prev_dir := none } := by
    rw [segStep_some,
        dirBlock_move _ _ _ (900, 1000) _ 0 rfl (Or.inl (by norm_num))
          (by apply hz <;> norm_num),
        dirUpdate_keep _ _ _ 0 _ rfl (by rw [angleChange_self]; exact not_half_pi_lt_zero),
        openIfIdle_some _ 1 _ rfl, bounceBlock_yes _ _ 1 _ (by decide) rfl]
  have e4 : segStep cfgC5 4 (some (1100, 1000))
      { shots := tryAppend cfgC5 1 3 [], cur_start := none,
        prev_valid := some (1000, 1000), prev_dir := none }
      = { shots := tryAppend cfgC5 1 3 [], cur_start := some 4,
          prev_valid := some (1100, 1000), prev_dir := some 0 } := by
    rw [segStep_some,
        dirBlock_move _ _ _ (1000, 1000) _ 0 rfl (Or.inl (by norm_num))
          (by apply hz <;> norm_num),
        dirUpdate_no_pd _ _ _ _ rfl, openIfIdle_none _ _ rfl,
        bounceBlock_no _ _ _ (by decide)]
  have e5 : segStep cfgC5 5 (some (1200, 1000))
      { shots := tryAppend cfgC5 1 3 [], cur_start := some 4,
        prev_valid := some (1100, 1000), prev_dir := some 0 }
      = { shots := tryAppend cfgC5 1 3 [], cur_start := some 4,
          prev_valid := some (1200, 1000), prev_dir := some 0 } := by
    rw [segStep_some,
        dirBlock_move _ _ _ (1100, 1000) _ 0 rfl (Or.inl (by norm_num))
          (by apply hz <;> norm_num),
        dirUpdate_keep _ _ _ 0 _ rfl (by rw [angleChange_self]; exact not_half_pi_lt_zero),
        openIfIdle_some _ 4 _ rfl, bounceBlock_no _ _ _ (by decide)]
  rw [show trackC5
      = some (700, 1000) :: some (800, 1000) :: some (900, 1000) ::
        some (1000, 1000) :: some (1100, 1000) :: some (1200, 1000) ::
        none :: [] from rfl]
  rw [segLoop_cons, e0, segLoop_cons, e1, segLoop_cons, e2, segLoop_cons, e3,
      segLoop_cons, e4, segLoop_cons, e5, segLoop_cons, segStep_none, segLoop_nil]

/-! ### Evaluating `_create_shot` and `segment_shots` on concrete runs -/

lemma create_shot_isSome (msf : ℕ) (fps : ℚ) (track : List (Option (ℚ × ℚ)))
    (bounces : List ℕ) (homs : ℕ → Option Mat3) (mc : Option ManualCalib)
    (s e : ℕ) (h : ¬((e : ℤ) - (s : ℤ) < (msf : ℤ))) :
    ∃ sh, create_shot msf fps track bounces homs mc s e = some sh := by
  rw [create_shot, if_neg h]
  exact ⟨_, rfl⟩

lemma create_shot_lp (msf : ℕ) (fps : ℚ) (track : List (Option (ℚ × ℚ)))
    (bounces : List ℕ) (homs : ℕ → Option Mat3) (mc : Option ManualCalib)
    (s e : ℕ) (sh : Shot)
    (h : create_shot msf fps track bounces homs mc s e = some sh) :
    sh.landing_position_pixels
      = (match (bounces.filter (fun b => decide (s ≤ b ∧ b ≤ e))).getLast? with
          | some b => track.getD b none
          | none => if e < track.length then track.getD e none else none) := by
  rw [create_shot] at h
  split at h
  · exact absurd h (by simp)
  · simp only [Option.some.injEq] at h
    rw [← h]

lemma tryAppend_some (cfg : SegCfg) (s0 e : ℕ) (shots : List Shot) (sh : Shot)
    (h : create_shot_cfg cfg s0 e = some sh) :
    tryAppend cfg s0 e shots = shots ++ [sh] := by
  rw [tryAppend, h]

lemma segment_shots_final_close (fps : ℚ) (track : List (Option (ℚ × ℚ)))
    (bounces : List ℕ) (homs : ℕ → Option Mat3) (mc : Option ManualCalib)
    (cfg : SegCfg) (st : SegState) (s0 : ℕ)
    (hcfg : cfg = { msf := min_shot_frames fps, fps := fps, track := track,
                    bounces := bounces, homs := homs, mc := mc })
    (hloop : segLoop cfg 0 track initSegState = st)
    (hcs : st.cur_start = some s0)
    (hlt : cfg.msf < track.length - s0) :
    segment_shots fps track bounces homs mc
      = tryAppend cfg s0 (track.length - 1) st.shots := by
  subst hcfg
  rw [segment_shots]
  simp only [hloop, hcs]
  rw [if_pos hlt]

lemma segment_shots_final_idle (fps : ℚ) (track : List (Option (ℚ × ℚ)))
    (bounces : List ℕ) (homs : ℕ → Option Mat3) (mc : Option ManualCalib)
    (cfg : SegCfg) (st : SegState)
    (hcfg : cfg = { msf := min_shot_frames fps, fps := fps, track := track,
                    bounces := bounces, homs := homs, mc := mc })
    (hloop : segLoop cfg 0 track initSegState = st)
    (hcs : st.cur_start = none) :
    segment_shots fps track bounces homs mc = st.shots := by
  subst hcfg
  rw [segment_shots]
  simp only [hloop, hcs]

lemma segStep_keep (cfg : SegCfg) (idx : ℕ) (p pv : ℚ × ℚ) (sh : List Shot) (s0 : ℕ)
    (hm : 5 < |p.1 - pv.1| ∨ 5 < |p.2 - pv.2|)
    (hd : atan2R ((p.2 - pv.2 : ℚ) : ℝ) ((p.1 - pv.1 : ℚ) : ℝ) = 0)
    (hnb : idx ∉ cfg.bounces) :
    segStep cfg idx (some p)
      { shots := sh, cur_start := some s0, prev_valid := some pv, prev_dir := some 0 }
      = { shots := sh, cur_start := some s0, prev_valid := some p,
          prev_dir := some 0 } := by
  rw [segStep_some, dirBlock_move _ _ _ pv _ 0 rfl hm hd,
      dirUpdate_keep _ _ _ 0 _ rfl (by rw [angleChange_self]; exact not_half_pi_lt_zero),
      openIfIdle_some _ s0 _ rfl, bounceBlock_no _ _ _ hnb]

/-- The first shot of the C5 run: frames 1-3, closed by the bounce at
frame 3; landing pixel `(1000, 1000)` converts to `(-2, 5)` metres and the
automatic-mode court test declares it in. -/
lemma shotC5a : ∃ sh, create_shot_cfg cfgC5 1 3 = some sh ∧ sh.outcome = "in" ∧
    sh.landing_frame = 3 ∧ sh.landing_position_meters = some (-2, 5) ∧
    sh.landing_position_pixels = some ((1000 : ℚ), (1000 : ℚ)) := by
  have hm : cfgC5.msf = 1 := msf4
  obtain ⟨sh, hsh⟩ := create_shot_isSome cfgC5.msf cfgC5.fps cfgC5.track cfgC5.bounces
    cfgC5.homs cfgC5.mc 1 3 (by rw [hm]; norm_num)
  have hlp : sh.landing_position_pixels = some ((1000 : ℚ), (1000 : ℚ)) := by
    rw [create_shot_lp _ _ _ _ _ _ _ _ _ hsh]
    rfl
  have hland : sh.landing_frame = 3 := by
    obtain ⟨_, _, _, _, hl⟩ := create_shot_some _ _ _ _ _ _ _ _ _ hsh
    rw [hl]
    rfl
  obtain ⟨hunk, hcls⟩ := create_shot_outcome _ _ _ _ _ _ _ _ _ hsh
  obtain ⟨hm2, hin, _⟩ := hcls (1000, 1000) Hc (-2, 5) hlp (by rw [hland]; rfl) p2ccC5
  exact ⟨sh, hsh, hin.mpr inCourtC5, hland, hm2, hlp⟩

/-- The second shot of the C5 run: frames 4-6, closed at the end of the
track; frame 6 has no ball detection, so the landing pixel is missing and
the outcome is `"unknown"` although a homography exists at frame 6. -/
lemma shotC5b : ∃ sh, create_shot_cfg cfgC5 4 6 = some sh ∧
    sh.outcome = "unknown" ∧ sh.landing_frame = 6 ∧
    sh.landing_position_pixels = none := by
  have hm : cfgC5.msf = 1 := msf4
  obtain ⟨sh, hsh⟩ := create_shot_isSome cfgC5.msf cfgC5.fps cfgC5.track cfgC5.bounces
    cfgC5.homs cfgC5.mc 4 6 (by rw [hm]; norm_num)
  have hlp : sh.landing_position_pixels = none := by
    rw [create_shot_lp _ _ _ _ _ _ _ _ _ hsh]
    rfl
  have hland : sh.landing_frame = 6 := by
    obtain ⟨_, _, _, _, hl⟩ := create_shot_some _ _ _ _ _ _ _ _ _ hsh
    rw [hl]
    rfl
  obtain ⟨hunk, _⟩ := create_shot_outcome _ _ _ _ _ _ _ _ _ hsh
  exact ⟨sh, hsh, hunk.mpr (Or.inl hlp), hland, hlp⟩

/-- The C5 run emits exactly the two shots above. -/
lemma segC5 : ∃ shA shB, segment_shots 4 trackC5 [3] homsHc none = [shA, shB] ∧
    shA.outcome = "in" ∧ shA.landing_position_meters = some (-2, 5) ∧
    shB.outcome = "unknown" ∧ shB.landing_frame = 6 ∧
    shB.landing_position_pixels = none := by
  obtain ⟨shA, hA, hA1, hA2, hA3, hA4⟩ := shotC5a
  obtain ⟨shB, hB, hB1, hB2, hB3⟩ := shotC5b
  refine ⟨shA, shB, ?_, hA1, hA3, hB1, hB2, hB3⟩
  have h := segment_shots_final_close 4 trackC5 [3] homsHc none cfgC5
    { shots := tryAppend cfgC5 1 3 [], cur_start := some 4,
      prev_valid := some (1200, 1000), prev_dir := some 0 } 4 rfl traceC5 rfl
    (by rw [show cfgC5.msf = min_shot_frames 4 from rfl, msf4]; decide)
  have h2 : tryAppend cfgC5 4 6 (tryAppend cfgC5 1 3 []) = [shA, shB] := by
    rw [tryAppend_some cfgC5 1 3 [] shA hA, List.nil_append,
        tryAppend_some cfgC5 4 6 [shA] shB hB]
    rfl
  exact h.trans h2

/-- A default shot record (used only as the `List.getD` fallback when
stating concrete facts about emitted shot lists). -/
def shotDefault : Shot :=
  { start_frame := 0, end_frame := 0, contact_frame := 0, landing_frame := 0,
    landing_position_pixels := none, landing_position_meters := none,
    outcome := "", ball_speed_mps := none, ball_speed_mph := none,
    duration_frames := 0, duration_seconds := 0 }

/-- The window test as the claim words it: both court coordinates within
`[-margin, dimension+margin]` (a corner-origin window).  Modelled from the
claim, for comparison with the source's `is_in_court`. -/
def specInWindow (x y xdim ydim margin : ℚ) : Bool :=
  decide ((-margin ≤ x ∧ x ≤ xdim + margin) ∧ (-margin ≤ y ∧ y ≤ ydim + margin))

/-- **C5, counterexample.**  On the concrete run `trackC5` (fps 4, bounce
at frame 3, a homography on every frame): the second emitted shot has
outcome `"unknown"` even though a homography is available at its landing
frame (its landing pixel is missing — frame 6 has no detection), refuting
the claimed equivalence; and the first emitted shot is declared `"in"` at
landing point `(-2, 5)` metres although `-2` lies outside the claimed
corner-origin window `[-margin, width+margin]` — the automatic-mode x-test
is the centered interval, not the claimed one. -/
theorem C5_counterexample :
    ((segment_shots 4 trackC5 [3] homsHc none).getD 1 shotDefault).outcome
      = "unknown" ∧
    homsHc ((segment_shots 4 trackC5 [3] homsHc none).getD 1
        shotDefault).landing_frame = some Hc ∧
    ((segment_shots 4 trackC5 [3] homsHc none).getD 0 shotDefault).outcome = "in" ∧
    ((segment_shots 4 trackC5 [3] homsHc
        none).getD 0 shotDefault).landing_position_meters = some (-2, 5) ∧
    specInWindow (-2) 5 SINGLES_WIDTH_M COURT_LENGTH_M (3 / 10) = false := by
  obtain ⟨shA, shB, hseg, hA1, hA2, hB1, hB2, hB3⟩ := segC5
  rw [hseg]
  refine ⟨hB1, rfl, hA1, hA2, ?_⟩
  rw [specInWindow]
  norm_num [SINGLES_WIDTH_M, COURT_LENGTH_M]

/-! ### C4: a bounce at a detection-less frame precedes the contact frame -/

def homsW : ℕ → Option Mat3 := fun _ => none

/-- Fourteen frames moving right; frame 2 has no detection (the bounce
frame), and the jump into frame 4 makes frame 4 the velocity maximum of
the contact search window. -/
def trackC4 : List (Option (ℚ × ℚ)) :=
  [some (0, 0), some (100, 0), none, some (300, 0), some (800, 0), some (900, 0),
   some (1000, 0), some (1100, 0), some (1200, 0), some (1300, 0), some (1400, 0),
   some (1500, 0), some (1600, 0), some (1700, 0)]

def cfgC4 : SegCfg :=
  { msf := min_shot_frames 4, fps := 4, track := trackC4,
    bounces := [2], homs := homsW, mc := none }

lemma contactC4 : contact_of trackC4 1 13 = 4 := by
  rw [contact_of_eq_sq]
  rw [show List.range' (1 + 1) (min (1 + (13 - 1) / 3) trackC4.length - (1 + 1))
      = [2, 3, 4] from rfl]
  rw [show contactLoopSq trackC4 [2, 3, 4] (1, 0)
      = contactLoopSq trackC4 [4] (1, 0) from rfl]
  rw [show contactLoopSq trackC4 [4] (1, 0)
      = (if ((800 : ℚ) - 300) ^ 2 + ((0 : ℚ) - 0) ^ 2 > (0 : ℚ) then
          contactLoopSq trackC4 []
            (4, ((800 : ℚ) - 300) ^ 2 + ((0 : ℚ) - 0) ^ 2)
        else contactLoopSq trackC4 [] (1, 0)) from rfl]
  rw [if_pos (by norm_num)]
  rfl

lemma traceC4 :
    segLoop cfgC4 0 trackC4 initSegState
      = { shots := [], cur_start := some 1, prev_valid := some (1700, 0),
          prev_dir := some 0 } := by
  have e0 : segStep cfgC4 0 (some (0, 0)) initSegState
      = { shots := [], cur_start := none, prev_valid := some (0, 0),
          prev_dir := none } := by
    rw [segStep_some, dirBlock_no_pv _ _ _ _ rfl, bounceBlock_no _ _ _ (by decide)]
    rfl
  have e1 : segStep cfgC4 1 (some (100, 0))
      { shots := [], cur_start := none, prev_valid := some (0, 0),
        prev_dir := none }
      = { shots := [], cur_start := some 1, prev_valid := some (100, 0),
          prev_dir := some 0 } := by
    rw [segStep_some,
        dirBlock_move _ _ _ (0, 0) _ 0 rfl (Or.inl (by norm_num))
          (by apply atan2R_cast_zero <;> norm_num),
        dirUpdate_no_pd _ _ _ _ rfl, openIfIdle_none _ _ rfl,
        bounceBlock_no _ _ _ (by decide)]
  rw [show trackC4
      = some (0, 0) :: some (100, 0) :: none :: some (300, 0) :: some (800, 0) ::
        some (900, 0) :: some (1000, 0) :: some (1100, 0) :: some (1200, 0) ::
        some (1300, 0) :: some (1400, 0) :: some (1500, 0) :: some (1600, 0) ::
        some (1700, 0) :: [] from rfl]
  rw [segLoop_cons, e0, segLoop_cons, e1, segLoop_cons, segStep_none,
      segLoop_cons,
      segStep_keep cfgC4 3 (300, 0) (100, 0) [] 1 (Or.inl (by norm_num))
        (by apply atan2R_cast_zero <;> norm_num) (by decide),
      segLoop_cons,
      segStep_keep cfgC4 4 (800, 0) (300, 0) [] 1 (Or.inl (by norm_num))
        (by apply atan2R_cast_zero <;> norm_num) (by decide),
      segLoop_cons,
      segStep_keep cfgC4 5 (900, 0) (800, 0) [] 1 (Or.inl (by norm_num))
        (by apply atan2R_cast_zero <;> norm_num) (by decide),
      segLoop_cons,
      segStep_keep cfgC4 6 (1000, 0) (900, 0) [] 1 (Or.inl (by norm_num))
        (by apply atan2R_cast_zero <;> norm_num) (by decide),
      segLoop_cons,
      segStep_keep cfgC4 7 (1100, 0) (1000, 0) [] 1 (Or.inl (by norm_num))
        (by apply atan2R_cast_zero <;> norm_num) (by decide),
      segLoop_cons,
      segStep_keep cfgC4 8 (1200, 0) (1100, 0) [] 1 (Or.inl (by norm_num))
        (by apply atan2R_cast_zero <;> norm_num) (by decide),
      segLoop_cons,
      segStep_keep cfgC4 9 (1300, 0) (1200, 0) [] 1 (Or.inl (by norm_num))
        (by apply atan2R_cast_zero <;> norm_num) (by decide),
      segLoop_cons,
      segStep_keep cfgC4 10 (1400, 0) (1300, 0) [] 1 (Or.inl (by norm_num))
        (by apply atan2R_cast_zero <;> norm_num) (by decide),
      segLoop_cons,
      segStep_keep cfgC4 11 (1500, 0) (1400, 0) [] 1 (Or.inl (by norm_num))
        (by apply atan2R_cast_zero <;> norm_num) (by decide),
      segLoop_cons,
      segStep_keep cfgC4 12 (1600, 0) (1500, 0) [] 1 (Or.inl (by norm_num))
        (by apply atan2R_cast_zero <;> norm_num) (by decide),
      segLoop_cons,
      segStep_keep cfgC4 13 (1700, 0) (1600, 0) [] 1 (Or.inl (by norm_num))
        (by apply atan2R_cast_zero <;> norm_num) (by decide),
      segLoop_nil]

/-- The C4 run emits exactly one shot, with contact frame 4 and landing
frame 2. -/
lemma segC4 : ∃ sh, segment_shots 4 trackC4 [2] homsW none = [sh] ∧
    sh.contact_frame = 4 ∧ sh.landing_frame = 2 := by
  obtain ⟨sh, hsh⟩ := create_shot_isSome cfgC4.msf cfgC4.fps cfgC4.track
    cfgC4.bounces cfgC4.homs cfgC4.mc 1 13
    (by rw [show cfgC4.msf = min_shot_frames 4 from rfl, msf4]; norm_num)
  obtain ⟨_, _, _, hcon, hl⟩ := create_shot_some _ _ _ _ _ _ _ _ _ hsh
  refine ⟨sh, ?_, ?_, ?_⟩
  · have h := segment_shots_final_close 4 trackC4 [2] homsW none cfgC4
      { shots := [], cur_start := some 1, prev_valid := some (1700, 0),
        prev_dir := some 0 } 1 rfl traceC4 rfl
      (by rw [show cfgC4.msf = min_shot_frames 4 from rfl, msf4]; decide)
    have h2 : tryAppend cfgC4 1 13 [] = [sh] := by
      rw [tryAppend_some cfgC4 1 13 [] sh hsh]
      rfl
    exact h.trans h2
  · rw [hcon]
    exact contactC4
  · rw [hl]
    rfl

/-- **C4, counterexample.**  On the concrete run `trackC4` (fps 4, a
bounce recorded at frame 2, where the ball is not detected): the single
emitted shot spans frames 1-13, its landing frame is the bounce frame 2
but its contact frame — the velocity maximum of the search window — is
frame 4, violating the claimed `contact_frame ≤ landing_frame`.  (The loop
skips detection-less frames before the bounce test, so the bounce at
frame 2 never closes the open shot and lands before the contact.) -/
theorem C4_counterexample :
    ((segment_shots 4 trackC4 [2] homsW none).getD 0 shotDefault).contact_frame
      = 4 ∧
    ((segment_shots 4 trackC4 [2] homsW none).getD 0 shotDefault).landing_frame
      = 2 ∧
    ¬(((segment_shots 4 trackC4 [2] homsW none).getD 0 shotDefault).contact_frame
        ≤ ((segment_shots 4 trackC4 [2] homsW
            none).getD 0 shotDefault).landing_frame) := by
  obtain ⟨sh, hseg, hcon, hland⟩ := segC4
  rw [hseg]
  refine ⟨hcon, hland, ?_⟩
  show ¬(sh.contact_frame ≤ sh.landing_frame)
  rw [hcon, hland]
  omega

/-! ### A two-frame run used to witness the segmenter theorems -/

def trackW : List (Option (ℚ × ℚ)) := [some (0, 0), some (100, 0)]

def cfgW : SegCfg :=
  { msf := min_shot_frames 0, fps := 0, track := trackW,
    bounces := [1], homs := homsW, mc := none }

lemma msf0 : min_shot_frames 0 = 0 := by
  rw [min_shot_frames, show ((0 : ℚ) * (3 / 10)) = 0 from by norm_num,
      Int.floor_zero]
  rfl

lemma traceW :
    segLoop cfgW 0 trackW initSegState
      = { shots := tryAppend cfgW 1 1 [], cur_start := none,
          prev_valid := some (100, 0), prev_dir := none } := by
  have e0 : segStep cfgW 0 (some (0, 0)) initSegState
      = { shots := [], cur_start := none, prev_valid := some (0, 0),
          prev_dir := none } := by
    rw [segStep_some, dirBlock_no_pv _ _ _ _ rfl, bounceBlock_no _ _ _ (by decide)]
    rfl
  have e1 : segStep cfgW 1 (some (100, 0))
      { shots := [], cur_start := none, prev_valid := some (0, 0),
        prev_dir := none }
      = { shots := tryAppend cfgW 1 1 [], cur_start := none,
          prev_valid := some (100, 0), prev_dir := none } := by
    rw [segStep_some,
        dirBlock_move _ _ _ (0, 0) _ 0 rfl (Or.inl (by norm_num))
          (by apply atan2R_cast_zero <;> norm_num),
        dirUpdate_no_pd _ _ _ _ rfl, openIfIdle_none _ _ rfl,
        bounceBlock_yes _ _ 1 _ (by decide) rfl]
  rw [show trackW = some (0, 0) :: some (100, 0) :: [] from rfl]
  rw [segLoop_cons, e0, segLoop_cons, e1, segLoop_nil]

/-- The two-frame run emits exactly one shot. -/
lemma segW : ∃ sh, segment_shots 0 trackW [1] homsW none = [sh] := by
  obtain ⟨sh, hsh⟩ := create_shot_isSome cfgW.msf cfgW.fps cfgW.track
    cfgW.bounces cfgW.homs cfgW.mc 1 1
    (by rw [show cfgW.msf = min_shot_frames 0 from rfl, msf0]; norm_num)
  refine ⟨sh, ?_⟩
  have h := segment_shots_final_idle 0 trackW [1] homsW none cfgW
    { shots := tryAppend cfgW 1 1 [], cur_start := none,
      prev_valid := some (100, 0), prev_dir := none } rfl traceW rfl
  have h2 : tryAppend cfgW 1 1 [] = [sh] := by
    rw [tryAppend_some cfgW 1 1 [] sh hsh]
    rfl
  exact h.trans h2

/-- Witness for C4 (amended): the invariants instantiated on the single
shot of the concrete two-frame run. -/
theorem C4_shot_invariants_witness :
    (segment_shots 0 trackW [1] homsW none).getD 0 shotDefault
      ∈ segment_shots 0 trackW [1] homsW none ∧
    ((segment_shots 0 trackW [1] homsW none).getD 0 shotDefault).start_frame
        ≤ ((segment_shots 0 trackW [1] homsW none).getD 0
            shotDefault).contact_frame ∧
      ((segment_shots 0 trackW [1] homsW none).getD 0 shotDefault).contact_frame
        ≤ ((segment_shots 0 trackW [1] homsW none).getD 0 shotDefault).end_frame ∧
      ((segment_shots 0 trackW [1] homsW none).getD 0 shotDefault).start_frame
        ≤ ((segment_shots 0 trackW [1] homsW none).getD 0
            shotDefault).landing_frame ∧
      ((segment_shots 0 trackW [1] homsW none).getD 0 shotDefault).landing_frame
        ≤ ((segment_shots 0 trackW [1] homsW none).getD 0 shotDefault).end_frame ∧
      (min_shot_frames 0 : ℤ)
        ≤ (((segment_shots 0 trackW [1] homsW none).getD 0
              shotDefault).end_frame : ℤ)
          - (((segment_shots 0 trackW [1] homsW none).getD 0
              shotDefault).start_frame : ℤ) := by
  obtain ⟨sh, hseg⟩ := segW
  have hmem : (segment_shots 0 trackW [1] homsW none).getD 0 shotDefault
      ∈ segment_shots 0 trackW [1] homsW none := by
    rw [hseg]
    exact List.mem_singleton.mpr rfl
  exact ⟨hmem, C4_shot_invariants 0 trackW [1] homsW none _ hmem⟩

/-- Witness for C5 (amended): the outcome equivalence instantiated on the
single shot of the concrete two-frame run. -/
theorem C5_outcome_classification_witness :
    (segment_shots 0 trackW [1] homsW none).getD 0 shotDefault
      ∈ segment_shots 0 trackW [1] homsW none ∧
    (((segment_shots 0 trackW [1] homsW none).getD 0 shotDefault).outcome
        = "unknown" ↔
      (((segment_shots 0 trackW [1] homsW none).getD 0
          shotDefault).landing_position_pixels = none ∨
        homsW ((segment_shots 0 trackW [1] homsW none).getD 0
            shotDefault).landing_frame = none)) := by
  obtain ⟨sh, hseg⟩ := segW
  have hmem : (segment_shots 0 trackW [1] homsW none).getD 0 shotDefault
      ∈ segment_shots 0 trackW [1] homsW none := by
    rw [hseg]
    exact List.mem_singleton.mpr rfl
  exact ⟨hmem, (C5_outcome_classification 0 trackW [1] homsW none _ hmem).1⟩

/-- Witness for C7: the two-sample formula instantiated at the concrete
track `track7` (yielding the 30 m/s value), together with the sample-count
hypothesis it discharges. -/
theorem C7_ball_speed_witness :
    2 ≤ (speedSamples track7 (fun _ => some Mat3.one) (some mcMan) 0 5).length ∧
    calculate_ball_speed track7 (fun _ => some Mat3.one) (some mcMan) 30 0 5
      = some
        ((List.zipWith (fun a b => eDist a.2 b.2)
            (speedSamples track7 (fun _ => some Mat3.one) (some mcMan) 0 5)
            (speedSamples track7 (fun _ => some Mat3.one) (some mcMan) 0 5).tail).sum /
          ((((List.zipWith (fun a b => b.1 - a.1)
              (speedSamples track7 (fun _ => some Mat3.one) (some mcMan) 0 5)
              (speedSamples track7 (fun _ => some Mat3.one)
                (some mcMan) 0 5).tail).sum : ℕ) : ℝ) / (((30 : ℚ) : ℚ) : ℝ))) ∧
    calculate_ball_speed track7 (fun _ => some Mat3.one) (some mcMan) 30 0 5
      = some 30 := by
  have hlen : 2 ≤ (speedSamples track7 (fun _ => some Mat3.one)
      (some mcMan) 0 5).length := by
    rw [speedSamples7]
    norm_num
  exact ⟨hlen,
    C7_ball_speed.2.1 track7 (fun _ => some Mat3.one) (some mcMan) 30 0 5 hlen,
    C7_ball_speed.2.2.2⟩

/-! ## `StrokeClassifier.classify` (`calibrate_comprehensive.py`, 971-1007)

The classifier reads three keys of the pose-metric dictionary (each with
`.get` default 0): the two normalized wrist velocities and the
hip-shoulder separation.  The fetched elbow angle does not influence the
result and is omitted.  `dominant_side` is `right` exactly when the right
velocity strictly exceeds the left. -/

structure Metrics where
  left_wrist_velocity_normalized : ℚ
  right_wrist_velocity_normalized : ℚ
  hip_shoulder_separation : ℚ

def classify (pm : Option Metrics) : String :=
  match pm with
  | none => "Unknown"
  | some m =>
    if max m.left_wrist_velocity_normalized m.right_wrist_velocity_normalized
        < 1 / 2 then "Unknown"
    else if 20 < m.hip_shoulder_separation then
      if m.left_wrist_velocity_normalized < m.right_wrist_velocity_normalized
      then "Forehand" else "Backhand"
    else if m.hip_shoulder_separation < -20 then
      if m.left_wrist_velocity_normalized < m.right_wrist_velocity_normalized
      then "Backhand" else "Forehand"
    else "Groundstroke"

/-- **C6.**  The classifier returns `"Unknown"` on a missing record and
whenever the peak normalized wrist velocity (the max of both wrists) is
below 0.5; otherwise hip-shoulder separation above 20° yields the
forehand-for-the-dominant-side label (`Forehand` when the right wrist is
strictly faster, else `Backhand`), separation below −20° the opposite
label, and separation within `[−20, 20]` yields `"Groundstroke"`. -/
theorem C6_stroke_classification :
    classify none = "Unknown" ∧
    (∀ m : Metrics,
      (max m.left_wrist_velocity_normalized m.right_wrist_velocity_normalized
          < 1 / 2 → classify (some m) = "Unknown") ∧
      (1 / 2
          ≤ max m.left_wrist_velocity_normalized m.right_wrist_velocity_normalized →
        (20 < m.hip_shoulder_separation →
          classify (some m)
            = if m.left_wrist_velocity_normalized
                  < m.right_wrist_velocity_normalized
              then "Forehand" else "Backhand") ∧
        (m.hip_shoulder_separation < -20 →
          classify (some m)
            = if m.left_wrist_velocity_normalized
                  < m.right_wrist_velocity_normalized
              then "Backhand" else "Forehand") ∧
        (-20 ≤ m.hip_shoulder_separation → m.hip_shoulder_separation ≤ 20 →
          classify (some m) = "Groundstroke"))) := by
  refine ⟨rfl, ?_⟩
  intro m
  constructor
  · intro h
    rw [classify, if_pos h]
  · intro hge
    refine ⟨?_, ?_, ?_⟩
    · intro h20
      rw [classify, if_neg (not_lt.mpr hge), if_pos h20]
    · intro hneg
      rw [classify, if_neg (not_lt.mpr hge), if_neg (by linarith), if_pos hneg]
    · intro h1 h2
      rw [classify, if_neg (not_lt.mpr hge), if_neg (not_lt.mpr h2),
          if_neg (not_lt.mpr h1)]

/-- A concrete pose-metric record: left velocity 0, right velocity 1,
separation 25°. -/
def mC6 : Metrics :=
  { left_wrist_velocity_normalized := 0, right_wrist_velocity_normalized := 1,
    hip_shoulder_separation := 25 }

/-- Witness for C6: the above-threshold, high-separation branch
instantiated at a concrete record (dominant side right, so `Forehand`). -/
theorem C6_stroke_classification_witness :
    1 / 2 ≤ max mC6.left_wrist_velocity_normalized
        mC6.right_wrist_velocity_normalized ∧
    20 < mC6.hip_shoulder_separation ∧
    classify (some mC6)
      = if mC6.left_wrist_velocity_normalized
            < mC6.right_wrist_velocity_normalized
        then "Forehand" else "Backhand" := by
  have hv : (1 : ℚ) / 2 ≤ max mC6.left_wrist_velocity_normalized
      mC6.right_wrist_velocity_normalized := by
    show (1 : ℚ) / 2 ≤ max 0 1
    norm_num
  have hs : (20 : ℚ) < mC6.hip_shoulder_separation := by
    show (20 : ℚ) < 25
    norm_num
  exact ⟨hv, hs, ((C6_stroke_classification.2 mC6).2 hv).1 hs⟩

/-! ## Short-video handling (`ball_detection_api.py` 234-236 /
`calibrate_comprehensive.py` 1056-1233)

The API path reads the frames and raises
`ValueError("Video too short - need at least 3 frames")` when fewer than
3 were read; only then does the pipeline proceed.
`ComprehensiveCalibrator.calibrate_video` has no frame-count guard: it
runs the four pipeline steps unconditionally.  On a video of fewer than
3 frames `BallDetector.infer_model` produces a trajectory with no
detections (the two-frame `(None, None)` padding; its prediction loop
`range(2, len(frames))` is empty), so `segment_shots` emits no shots and
no shot is analyzed, `_generate_summary` returns the
`{'error': 'No shots analyzed'}` dictionary, and the unconditional final
`_print_summary` call raises `KeyError` reading `summary['total_shots']`
— after the whole pipeline ran and the output JSON (when requested) was
already written.  At zero frames the step-1 detection-rate report
divides by `len(frames)` first and raises `ZeroDivisionError`.
`calibrate_video` is modelled as its stage sequence plus final outcome,
with the per-frame ball prediction, the court/bounce components and the
per-shot pose analysis as oracles (none of which raises on these
inputs). -/

def process_video_short_check (nframes : ℕ) : Except String ℕ :=
  if nframes < 3 then Except.error "Video too short - need at least 3 frames"
  else Except.ok nframes

/-- The shape of `BallDetector.infer_model`'s result: one `None` entry
per frame when disabled; when enabled, the two-frame `(None, None)`
padding followed by one prediction per index in `range(2, len(frames))`
(the prediction itself an oracle `det`). -/
def ball_infer (enabled : Bool) (det : ℕ → Option (ℚ × ℚ)) (nframes : ℕ) :
    List (Option (ℚ × ℚ)) :=
  if enabled = false then List.replicate nframes none
  else List.replicate 2 none ++ (List.range' 2 (nframes - 2)).map det

/-- `_generate_summary`'s two shapes: `{'error': 'No shots analyzed'}`
(no `'total_shots'` key) for an empty analyzed-shot list, else the
statistics dictionary carrying `'total_shots' = len(shots)`. -/
inductive CalibSummary where
  | noShots : CalibSummary
  | stats : ℕ → CalibSummary

def generate_summary {α : Type} (shots : List α) : CalibSummary :=
  if shots.isEmpty = true then CalibSummary.noShots
  else CalibSummary.stats shots.length

/-- `_print_summary` reads `summary['total_shots']`: on the no-shots
error dictionary this raises `KeyError`. -/
def print_summary : CalibSummary → Except String Unit
  | CalibSummary.noShots => Except.error "KeyError: total_shots"
  | CalibSummary.stats _ => Except.ok ()

/-- `ComprehensiveCalibrator.calibrate_video` as its stage sequence and
final outcome.  Zero frames die in the step-1 detection-rate division;
otherwise all four steps, the per-shot pose analysis (`ao` keeps the
shots that survive it), summary generation and the optional output save
run, and the final `_print_summary` call either succeeds or raises the
`KeyError` on an empty analyzed-shot list. -/
noncomputable def calibrate_video_run (fps : ℚ) (nframes : ℕ) (enabled : Bool)
    (det : ℕ → Option (ℚ × ℚ)) (bounces : List ℕ) (homs : ℕ → Option Mat3)
    (mc : Option ManualCalib) (ao : Shot → Option Unit) (save_output : Bool) :
    List String × Except String ℕ :=
  if nframes = 0 then
    (["read_frames", "ball_tracking"], Except.error "ZeroDivisionError")
  else
    (["read_frames", "ball_tracking", "court_detection", "bounce_detection",
        "shot_segmentation", "pose_analysis", "generate_summary"]
      ++ (if save_output = true then ["save_output"] else []) ++ ["print_summary"],
     match print_summary (generate_summary
        ((segment_shots fps (ball_infer enabled det nframes) bounces homs
            mc).filterMap ao)) with
     | Except.ok _ =>
       Except.ok ((segment_shots fps (ball_infer enabled det nframes) bounces
           homs mc).filterMap ao).length
     | Except.error e => Except.error e)

lemma segLoop_all_none (cfg : SegCfg) :
    ∀ (l : List (Option (ℚ × ℚ))), (∀ x ∈ l, x = none) →
      ∀ (idx : ℕ) (st : SegState), segLoop cfg idx l st = st := by
  intro l
  induction l with
  | nil => intro _ _ _; rfl
  | cons fr t ih =>
    intro h idx st
    rw [segLoop_cons, show fr = none from h fr (List.mem_cons_self _ _),
        segStep_none]
    exact ih (fun x hx => h x (List.mem_cons_of_mem _ hx)) (idx + 1) st

/-- A trajectory with no detections yields no shots. -/
lemma segment_shots_all_none (fps : ℚ) (track : List (Option (ℚ × ℚ)))
    (bounces : List ℕ) (homs : ℕ → Option Mat3) (mc : Option ManualCalib)
    (h : ∀ x ∈ track, x = none) :
    segment_shots fps track bounces homs mc = [] :=
  segment_shots_final_idle fps track bounces homs mc _ initSegState rfl
    (segLoop_all_none _ track h 0 initSegState) rfl

/-- Fewer than 3 frames leave the trajectory without any detection. -/
lemma ball_infer_all_none (enabled : Bool) (det : ℕ → Option (ℚ × ℚ))
    (nframes : ℕ) (hn : nframes < 3) :
    ∀ x ∈ ball_infer enabled det nframes, x = none := by
  intro x hx
  rw [ball_infer] at hx
  cases enabled with
  | false =>
    rw [if_pos rfl] at hx
    exact List.eq_of_mem_replicate hx
  | true =>
    rw [if_neg (by simp)] at hx
    rw [show nframes - 2 = 0 from by omega,
        show (List.range' 2 0).map det = [] from rfl, List.append_nil] at hx
    exact List.eq_of_mem_replicate hx

def detC8 : ℕ → Option (ℚ × ℚ) := fun _ => none

def aoC8 : Shot → Option Unit := fun _ => none

/-- **C8, counterexample.**  A 2-frame video: the API path aborts
immediately with the `ValueError`, but `calibrate_video` does not abort
immediately — its stage sequence shows the entire pipeline, the summary
generation and the output save all running, and the run fails only in
the final `_print_summary` call, with a `KeyError` that is not the
short-video error. -/
theorem C8_counterexample :
    process_video_short_check 2
      = Except.error "Video too short - need at least 3 frames" ∧
    (calibrate_video_run 30 2 true detC8 [] homsW none aoC8 true).1
      = ["read_frames", "ball_tracking", "court_detection", "bounce_detection",
         "shot_segmentation", "pose_analysis", "generate_summary", "save_output",
         "print_summary"] ∧
    (calibrate_video_run 30 2 true detC8 [] homsW none aoC8 true).2
      = Except.error "KeyError: total_shots" ∧
    (Except.error "KeyError: total_shots" : Except String ℕ)
      ≠ Except.error "Video too short - need at least 3 frames" := by
  refine ⟨?_, ?_, ?_, ?_⟩
  · rw [process_video_short_check, if_pos (by norm_num)]
  · rfl
  · rfl
  · simp

/-- **C8 (amended).**  Both paths end in an error on every video of
fewer than 3 frames, but only the video-processing API path aborts
immediately with the fatal short-video `ValueError`.
`calibrate_video` has no frame-count guard: for 1 or 2 frames it runs
the entire pipeline (ball tracking yields a detection-less trajectory,
so no shots are segmented or analyzed), generates the no-shots summary,
saves the output when requested, and only then raises
`KeyError('total_shots')` inside `_print_summary`; at zero frames it
raises `ZeroDivisionError` in the step-1 detection-rate report. -/
theorem C8_short_video_abort :
    (∀ n, n < 3 → process_video_short_check n
      = Except.error "Video too short - need at least 3 frames") ∧
    (∀ n, 3 ≤ n → process_video_short_check n = Except.ok n) ∧
    (∀ (fps : ℚ) (n : ℕ) (enabled : Bool) (det : ℕ → Option (ℚ × ℚ))
        (bounces : List ℕ) (homs : ℕ → Option Mat3) (mc : Option ManualCalib)
        (ao : Shot → Option Unit) (so : Bool), 1 ≤ n → n < 3 →
      (calibrate_video_run fps n enabled det bounces homs mc ao so).2
        = Except.error "KeyError: total_shots" ∧
      "shot_segmentation"
        ∈ (calibrate_video_run fps n enabled det bounces homs mc ao so).1) ∧
    (∀ (fps : ℚ) (enabled : Bool) (det : ℕ → Option (ℚ × ℚ)) (bounces : List ℕ)
        (homs : ℕ → Option Mat3) (mc : Option ManualCalib)
        (ao : Shot → Option Unit) (so : Bool),
      (calibrate_video_run fps 0 enabled det bounces homs mc ao so).2
        = Except.error "ZeroDivisionError") := by
  refine ⟨?_, ?_, ?_, ?_⟩
  · intro n h
    rw [process_video_short_check, if_pos h]
  · intro n h
    rw [process_video_short_check, if_neg (by omega)]
  · intro fps n enabled det bounces homs mc ao so h1 h3
    rw [calibrate_video_run, if_neg (by omega)]
    constructor
    · rw [segment_shots_all_none fps (ball_infer enabled det n) bounces homs mc
          (ball_infer_all_none enabled det n h3)]
      rfl
    · simp
  · intro fps enabled det bounces homs mc ao so
    rw [calibrate_video_run, if_pos rfl]

/-- Witness for C8 (amended): all four branches at concrete frame
counts 2, 3, 2 and 0. -/
theorem C8_short_video_abort_witness :
    (2 : ℕ) < 3 ∧
    process_video_short_check 2
      = Except.error "Video too short - need at least 3 frames" ∧
    (3 : ℕ) ≤ 3 ∧ process_video_short_check 3 = Except.ok 3 ∧
    (1 : ℕ) ≤ 2 ∧
    (calibrate_video_run 30 2 true detC8 [] homsW none aoC8 true).2
      = Except.error "KeyError: total_shots" ∧
    "shot_segmentation"
      ∈ (calibrate_video_run 30 2 true detC8 [] homsW none aoC8 true).1 ∧
    (calibrate_video_run 30 0 true detC8 [] homsW none aoC8 true).2
      = Except.error "ZeroDivisionError" :=
  ⟨by norm_num, C8_short_video_abort.1 2 (by norm_num), by norm_num,
   C8_short_video_abort.2.1 3 (by norm_num), by norm_num,
   (C8_short_video_abort.2.2.1 30 2 true detC8 [] homsW none aoC8 true
     (by norm_num) (by norm_num)).1,
   (C8_short_video_abort.2.2.1 30 2 true detC8 [] homsW none aoC8 true
     (by norm_num) (by norm_num)).2,
   C8_short_video_abort.2.2.2 30 true detC8 [] homsW none aoC8 true⟩


/-! ## `BounceDetector.predict` / `smooth_predictions` / `BallDetector.postprocess`
(`calibrate_comprehensive.py`, 239-258 and 448-531)

Python lists are mutable references: the x/y coordinate lists live in a
heap (reference → list of optional coordinates) with an allocation
counter; `list.copy()` allocates a fresh reference.  `smooth_predictions`
mutates the lists it is handed in place; `predict` hands it copies.  The
cubic-spline `extrapolate` and the CatBoost feature/prediction stage are
oracles (pure functions of the list contents).  Python truthiness of a
coordinate (`if x:` / `if not x:`) is false both for `None` and for the
number 0. -/

structure Heap where
  mem : ℕ → List (Option ℚ)
  next : ℕ

def writeRef (h : Heap) (r : ℕ) (v : List (Option ℚ)) : Heap :=
  { mem := fun i => if i = r then v else h.mem i, next := h.next }

def updRef (h : Heap) (r : ℕ) (f : List (Option ℚ) → List (Option ℚ)) : Heap :=
  writeRef h r (f (h.mem r))

def copyRef (h : Heap) (r : ℕ) : Heap × ℕ :=
  ({ mem := fun i => if i = h.next then h.mem r else h.mem i, next := h.next + 1 },
   h.next)

def truthy : Option ℚ → Bool
  | none => false
  | some q => decide (q ≠ 0)

/-- `int(x is None)` — the gap mask entries (an identity-`None` check,
unlike the loop's truthiness test). -/
def isNoneInt : Option ℚ → ℕ
  | none => 1
  | some _ => 0

/-- `self.extrapolate(x_ball[num-interp:num], y_ball[num-interp:num])`
with `interp = 5`, the spline itself an oracle `ex`. -/
def extOf (ex : List (Option ℚ) → List (Option ℚ) → ℚ × ℚ)
    (hp : Heap) (rx ry num : ℕ) : ℚ × ℚ :=
  ex (((hp.mem rx).drop (num - 5)).take 5) (((hp.mem ry).drop (num - 5)).take 5)

/-- `x_ball[num] = x_ext; y_ball[num] = y_ext` (both extrapolated from
the pre-write contents). -/
def smXY (ex : List (Option ℚ) → List (Option ℚ) → ℚ × ℚ)
    (rx ry num : ℕ) (hp : Heap) : Heap :=
  updRef (updRef hp rx (fun l => l.set num (some (extOf ex hp rx ry num).1))) ry
    (fun l => l.set num (some (extOf ex hp rx ry num).2))

/-- `x_ball[num+1], y_ball[num+1] = None, None`. -/
def eraseNext (rx ry num : ℕ) (hp : Heap) : Heap :=
  updRef (updRef hp rx (fun l => l.set (num + 1) none)) ry
    (fun l => l.set (num + 1) none)

/-- The body of a filling iteration of `smooth_predictions` (guard
already passed): write the extrapolated pair at `num`, clear the gap
mask there, and — when the *x* value at `num+1` is truthy and more than
80 px from the extrapolated point — erase frame `num+1` (a `None` *y*
alongside a truthy *x* would raise in the source and is modelled as no
erase). -/
noncomputable def smBody (ex : List (Option ℚ) → List (Option ℚ) → ℚ × ℚ)
    (rx ry num : ℕ) (hp : Heap) (isn : List ℕ) (c : ℕ) :
    Heap × List ℕ × ℕ :=
  match ((smXY ex rx ry num hp).mem rx).getD (num + 1) none,
        ((smXY ex rx ry num hp).mem ry).getD (num + 1) none with
  | some x1, some y1 =>
    if truthy (some x1) = true then
      if (80 : ℝ) < eDist (extOf ex hp rx ry num) (x1, y1) then
        (eraseNext rx ry num (smXY ex rx ry num hp),
         (isn.set num 0).set (num + 1) 1, c + 1)
      else (smXY ex rx ry num hp, isn.set num 0, c + 1)
    else (smXY ex rx ry num hp, isn.set num 0, c + 1)
  | _, _ => (smXY ex rx ry num hp, isn.set num 0, c + 1)

/-- One iteration of the `smooth_predictions` loop: fill when the *x*
sample at `num` is falsy, the previous five frames have no gap, and
fewer than 3 consecutive fills occurred; otherwise reset the fill
counter. -/
noncomputable def smStep (ex : List (Option ℚ) → List (Option ℚ) → ℚ × ℚ)
    (rx ry num : ℕ) (st : Heap × List ℕ × ℕ) : Heap × List ℕ × ℕ :=
  if truthy (((st.1).mem rx).getD num none) = false
      ∧ (((st.2.1).drop (num - 5)).take 5).sum = 0 ∧ st.2.2 < 3 then
    smBody ex rx ry num st.1 st.2.1 st.2.2
  else (st.1, st.2.1, 0)

noncomputable def smoothLoop (ex : List (Option ℚ) → List (Option ℚ) → ℚ × ℚ)
    (rx ry : ℕ) : List ℕ → Heap × List ℕ × ℕ → Heap × List ℕ × ℕ
  | [], st => st
  | n :: t, st => smoothLoop ex rx ry t (smStep ex rx ry n st)

/-- `BounceDetector.smooth_predictions` acting on the heap at the two
list references it is handed: loop `num` over `range(5, len(x_ball)-1)`
starting from the initial gap mask and counter 0.  The function returns
its (mutated) argument references, so the heap is the whole result. -/
noncomputable def smooth_predictions
    (ex : List (Option ℚ) → List (Option ℚ) → ℚ × ℚ)
    (h : Heap) (rx ry : ℕ) : Heap :=
  (smoothLoop ex rx ry (List.range' 5 ((h.mem rx).length - 1 - 5))
    (h, (h.mem rx).map isNoneInt, 0)).1

/-- The heap after `predict`'s smoothing stage:
`self.smooth_predictions(x_ball.copy(), y_ball.copy())`. -/
noncomputable def predictSmoothed
    (ex : List (Option ℚ) → List (Option ℚ) → ℚ × ℚ)
    (h : Heap) (rx ry : ℕ) : Heap :=
  smooth_predictions ex (copyRef (copyRef h rx).1 ry).1 (copyRef h rx).2
    (copyRef (copyRef h rx).1 ry).2

/-- `BounceDetector.predict`: disabled detectors return the empty set
untouched; with smoothing the feature/prediction/postprocess stage `bo`
(an oracle — pure reads) runs on the smoothed copies, otherwise on the
original lists.  The returned heap is the caller-visible memory. -/
noncomputable def predictB (ex : List (Option ℚ) → List (Option ℚ) → ℚ × ℚ)
    (bo : List (Option ℚ) → List (Option ℚ) → List ℕ)
    (enabled : Bool) (h : Heap) (rx ry : ℕ) (smooth : Bool) : Heap × List ℕ :=
  if enabled = false then (h, [])
  else if smooth = true then
    (predictSmoothed ex h rx ry,
     bo ((predictSmoothed ex h rx ry).mem ((copyRef h rx).2))
        ((predictSmoothed ex h rx ry).mem ((copyRef (copyRef h rx).1 ry).2)))
  else (h, bo (h.mem rx) (h.mem ry))

lemma writeRef_mem_ne (h : Heap) (r : ℕ) (v : List (Option ℚ)) (r' : ℕ)
    (hne : r' ≠ r) : (writeRef h r v).mem r' = h.mem r' := by
  rw [writeRef]
  simp [hne]

lemma updRef_mem_ne (h : Heap) (r : ℕ) (f : List (Option ℚ) → List (Option ℚ))
    (r' : ℕ) (hne : r' ≠ r) : (updRef h r f).mem r' = h.mem r' :=
  writeRef_mem_ne h r _ r' hne

lemma smXY_mem_ne (ex : List (Option ℚ) → List (Option ℚ) → ℚ × ℚ)
    (rx ry num : ℕ) (hp : Heap) (r : ℕ) (h1 : r ≠ rx) (h2 : r ≠ ry) :
    (smXY ex rx ry num hp).mem r = hp.mem r := by
  rw [smXY, updRef_mem_ne _ _ _ _ h2, updRef_mem_ne _ _ _ _ h1]

lemma eraseNext_mem_ne (rx ry num : ℕ) (hp : Heap) (r : ℕ)
    (h1 : r ≠ rx) (h2 : r ≠ ry) :
    (eraseNext rx ry num hp).mem r = hp.mem r := by
  rw [eraseNext, updRef_mem_ne _ _ _ _ h2, updRef_mem_ne _ _ _ _ h1]

lemma smBody_mem_ne (ex : List (Option ℚ) → List (Option ℚ) → ℚ × ℚ)
    (rx ry num : ℕ) (hp : Heap) (isn : List ℕ) (c : ℕ) (r : ℕ)
    (h1 : r ≠ rx) (h2 : r ≠ ry) :
    ((smBody ex rx ry num hp isn c).1).mem r = hp.mem r := by
  rw [smBody]
  split
  · split
    · split
      · exact (eraseNext_mem_ne rx ry num _ r h1 h2).trans
          (smXY_mem_ne ex rx ry num hp r h1 h2)
      · exact smXY_mem_ne ex rx ry num hp r h1 h2
    · exact smXY_mem_ne ex rx ry num hp r h1 h2
  · exact smXY_mem_ne ex rx ry num hp r h1 h2

lemma smStep_mem_ne (ex : List (Option ℚ) → List (Option ℚ) → ℚ × ℚ)
    (rx ry num : ℕ) (st : Heap × List ℕ × ℕ) (r : ℕ)
    (h1 : r ≠ rx) (h2 : r ≠ ry) :
    ((smStep ex rx ry num st).1).mem r = (st.1).mem r := by
  rw [smStep]
  split
  · exact smBody_mem_ne ex rx ry num st.1 st.2.1 st.2.2 r h1 h2
  · rfl

lemma smoothLoop_mem_ne (ex : List (Option ℚ) → List (Option ℚ) → ℚ × ℚ)
    (rx ry : ℕ) :
    ∀ (l : List ℕ) (st : Heap × List ℕ × ℕ) (r : ℕ), r ≠ rx → r ≠ ry →
      ((smoothLoop ex rx ry l st).1).mem r = (st.1).mem r
  | [], st, r => fun _ _ => rfl
  | n :: t, st, r => fun h1 h2 => by
    rw [smoothLoop]
    rw [smoothLoop_mem_ne ex rx ry t _ r h1 h2,
        smStep_mem_ne ex rx ry n st r h1 h2]

lemma smooth_predictions_mem_ne
    (ex : List (Option ℚ) → List (Option ℚ) → ℚ × ℚ)
    (h : Heap) (rx ry : ℕ) (r : ℕ) (h1 : r ≠ rx) (h2 : r ≠ ry) :
    (smooth_predictions ex h rx ry).mem r = h.mem r := by
  rw [smooth_predictions]
  exact smoothLoop_mem_ne ex rx ry _ _ r h1 h2

lemma copyRef_mem_ne (h : Heap) (r r' : ℕ) (hne : r' ≠ h.next) :
    ((copyRef h r).1).mem r' = h.mem r' := by
  rw [copyRef]
  simp [hne]

lemma copyRef_next (h : Heap) (r : ℕ) : ((copyRef h r).1).next = h.next + 1 := rfl

lemma copyRef_ref (h : Heap) (r : ℕ) : (copyRef h r).2 = h.next := rfl

lemma predictB_heap (ex : List (Option ℚ) → List (Option ℚ) → ℚ × ℚ)
    (bo : List (Option ℚ) → List (Option ℚ) → List ℕ)
    (enabled : Bool) (h : Heap) (rx ry : ℕ) (smooth : Bool) :
    (predictB ex bo enabled h rx ry smooth).1 = h ∨
    (predictB ex bo enabled h rx ry smooth).1 = predictSmoothed ex h rx ry := by
  rw [predictB]
  cases enabled
  · left
    rfl
  · cases smooth
    · left
      rfl
    · right
      rfl

/-- **C9.**  `BounceDetector.predict` never mutates the caller's
coordinate lists: for every heap, every pair of valid (already
allocated) list references, every smoothing flag and enabled state, and
every extrapolation and prediction oracle, the lists at the caller's
references are unchanged after the call — smoothing operates on the
fresh copies `x_ball.copy()` / `y_ball.copy()`, and the smoothing pass
writes only to the references it is handed. -/
theorem C9_predict_no_mutation
    (ex : List (Option ℚ) → List (Option ℚ) → ℚ × ℚ)
    (bo : List (Option ℚ) → List (Option ℚ) → List ℕ)
    (enabled smooth : Bool) (h : Heap) (rx ry : ℕ)
    (hrx : rx < h.next) (hry : ry < h.next) :
    ((predictB ex bo enabled h rx ry smooth).1).mem rx = h.mem rx ∧
    ((predictB ex bo enabled h rx ry smooth).1).mem ry = h.mem ry := by
  rcases predictB_heap ex bo enabled h rx ry smooth with hh | hh <;> rw [hh]
  · exact ⟨rfl, rfl⟩
  · constructor
    · rw [predictSmoothed,
          smooth_predictions_mem_ne _ _ _ _ _
            (by rw [copyRef_ref]; omega)
            (by rw [copyRef_ref, copyRef_next]; omega),
          copyRef_mem_ne _ _ _ (by rw [copyRef_next]; omega),
          copyRef_mem_ne _ _ _ (by omega)]
    · rw [predictSmoothed,
          smooth_predictions_mem_ne _ _ _ _ _
            (by rw [copyRef_ref]; omega)
            (by rw [copyRef_ref, copyRef_next]; omega),
          copyRef_mem_ne _ _ _ (by rw [copyRef_next]; omega),
          copyRef_mem_ne _ _ _ (by omega)]

def exW : List (Option ℚ) → List (Option ℚ) → ℚ × ℚ := fun _ _ => (0, 0)

def boW : List (Option ℚ) → List (Option ℚ) → List ℕ := fun _ _ => []

/-- A one-reference heap holding a two-sample trajectory. -/
def hC9 : Heap :=
  { mem := fun r => if r = 0 then [some 1, none] else [], next := 1 }

/-- Witness for C9: the no-mutation statement instantiated at the
concrete heap (both coordinate lists aliased to reference 0), with the
validity hypotheses discharged. -/
theorem C9_predict_no_mutation_witness :
    0 < hC9.next ∧
    ((predictB exW boW true hC9 0 0 true).1).mem 0 = hC9.mem 0 :=
  ⟨by norm_num [hC9],
   (C9_predict_no_mutation exW boW true true hC9 0 0
     (by norm_num [hC9]) (by norm_num [hC9])).1⟩

/-! ### C10: truthiness of the x coordinate as the presence test -/

/-- The scan of `BallDetector.postprocess`' disambiguation loop: the
first Hough circle whose scaled position lies within `max_dist` of the
previous prediction. -/
noncomputable def firstWithin (scale : ℚ) (prev : ℚ × ℚ) (max_dist : ℚ) :
    List (ℚ × ℚ) → Option (ℚ × ℚ)
  | [] => none
  | c :: t =>
    if eDist (c.1 * scale, c.2 * scale) prev < ((max_dist : ℚ) : ℝ) then
      some (c.1 * scale, c.2 * scale)
    else firstWithin scale prev max_dist t

/-- `BallDetector.postprocess` (`calibrate_comprehensive.py`, 239-258)
after the heatmap stage, with the Hough-circle list an oracle argument:
no circles yields no prediction; with circles, a *truthy* previous x
coordinate (`if prev_pred[0]:`) triggers the maximum-distance
disambiguation loop, and otherwise — also when the previous x is the
number 0 — the first circle is accepted unconditionally.  (A `None`
previous y under a truthy previous x would raise in the source; the
`getD` default is never reached on source-reachable states.) -/
noncomputable def bd_postprocess (circles : Option (List (ℚ × ℚ)))
    (prev : Option ℚ × Option ℚ) (scale max_dist : ℚ) : Option ℚ × Option ℚ :=
  match circles with
  | none => (none, none)
  | some cs =>
    if truthy prev.1 = true then
      match firstWithin scale (prev.1.getD 0, prev.2.getD 0) max_dist cs with
      | some c => (some c.1, some c.2)
      | none => (none, none)
    else
      match cs.head? with
      | some c => (some (c.1 * scale), some (c.2 * scale))
      | none => (none, none)

/-- A trajectory whose sample at index 5 is present with x exactly 0,
preceded by five valid frames; the last frame is missing. -/
def xs0 : List (Option ℚ) := [some 1, some 2, some 3, some 4, some 5, some 0, none]

def ys0 : List (Option ℚ) :=
  [some 10, some 20, some 30, some 40, some 50, some 60, none]

def hC10 : Heap :=
  { mem := fun r => if r = 0 then xs0 else if r = 1 then ys0 else [], next := 2 }

/-- A constant extrapolation oracle returning `(42, 37)`. -/
def exC10 : List (Option ℚ) → List (Option ℚ) → ℚ × ℚ := fun _ _ => (42, 37)

lemma smoothC10 :
    ((smooth_predictions exC10 hC10 0 1).mem 0).getD 5 none = some 42 := by
  show ((smStep exC10 0 1 5
      (hC10, (hC10.mem 0).map isNoneInt, 0)).1.mem 0).getD 5 none = some 42
  rw [smStep]
  split
  · rfl
  · rename_i hcond
    exfalso
    apply hcond
    refine ⟨?_, rfl, by decide⟩
    show truthy (some (0 : ℚ)) = false
    rw [truthy]
    simp

lemma bd_pp_zero_prev (cs : List (ℚ × ℚ)) (c0 : ℚ × ℚ) (y0 : Option ℚ)
    (hhead : cs.head? = some c0) :
    bd_postprocess (some cs) (some 0, y0) 2 80
      = (some (c0.1 * 2), some (c0.2 * 2)) := by
  have ht : truthy ((some (0 : ℚ), y0) : Option ℚ × Option ℚ).1 = false := by
    show truthy (some (0 : ℚ)) = false
    rw [truthy]
    simp
  rw [bd_postprocess, if_neg (by rw [ht]; simp), hhead]

/-- **C10.**  Python truthiness as the presence test, both instances
confirmed.  Gap filling: in the concrete trajectory `xs0` the sample at
index 5 is present with x exactly 0 and preceded by five valid frames,
yet `smooth_predictions` treats it as missing and overwrites it with the
extrapolated value.  Detection: whenever the previous prediction's x
coordinate is the number 0, `postprocess` skips the maximum-distance
gate and accepts the first Hough circle unconditionally (scaled by 2) —
in the concrete instance a circle 2000 px away from the previous
position. -/
theorem C10_truthiness :
    (hC10.mem 0).getD 5 none = some 0 ∧
    (((hC10.mem 0).map isNoneInt).take 5).sum = 0 ∧
    ((smooth_predictions exC10 hC10 0 1).mem 0).getD 5 none = some 42 ∧
    ((smooth_predictions exC10 hC10 0 1).mem 0).getD 5 none
      ≠ (hC10.mem 0).getD 5 none ∧
    (∀ (cs : List (ℚ × ℚ)) (c0 : ℚ × ℚ) (y0 : Option ℚ), cs.head? = some c0 →
      bd_postprocess (some cs) (some 0, y0) 2 80
        = (some (c0.1 * 2), some (c0.2 * 2))) ∧
    bd_postprocess (some [(1000, 1000)]) (some 0, some 0) 2 80
      = (some 2000, some 2000) := by
  refine ⟨rfl, rfl, smoothC10, ?_, bd_pp_zero_prev, ?_⟩
  · rw [smoothC10, show (hC10.mem 0).getD 5 none = some (0 : ℚ) from rfl]
    simp
  · rw [bd_pp_zero_prev [(1000, 1000)] (1000, 1000) (some 0) rfl]
    norm_num

/-- Witness for C10: the unconditional-acceptance statement instantiated
at a single far-away circle. -/
theorem C10_truthiness_witness :
    ([((1000 : ℚ), (1000 : ℚ))] : List (ℚ × ℚ)).head? = some (1000, 1000) ∧
    bd_postprocess (some [(1000, 1000)]) (some 0, some 0) 2 80
      = (some (1000 * 2), some (1000 * 2)) :=
  ⟨rfl, C10_truthiness.2.2.2.2.1 [(1000, 1000)] (1000, 1000) (some 0) rfl⟩
